import Mathlib

/-!
Shallow embedding of the "DeadLight Chase" core: the grid model, the A*
pathfinder (`game_utils/pathfinding.py`), the raycaster and wall test
(`game_utils/game_util.py`), and the Deadlight boss controller
(`game_utils/deadlight.py`).

Modelling conventions:
* Python ints are `Int`/`Nat`; Python floats are idealised as real numbers.
* The grid is a list of rows of cell codes; `grid[ty][tx]` becomes `cellAt`.
  All source accesses are bounds-guarded, so the `getD` default is never the
  value actually read on rectangular grids.
* Python dicts keyed by tile become association lists with most-recent-first
  lookup; `heapq` becomes a list popped at its lexicographically least tuple.
* `random.*` draws and the wall-clock duration measured around path
  computation become explicit oracle streams passed in by the caller.
-/

namespace DLC

/-- `TILE_SIZE` from game_util.py. -/
def TILE_SIZE : ℤ := 8

/-- `MAP_SIZE` from game_util.py (world units). -/
def MAP_SIZE : ℝ := 3000

/-- `GRID_W = MAP_SIZE // TILE_SIZE` from game_util.py. -/
def GRID_W : ℤ := 375

/-- `GRID_H = MAP_SIZE // TILE_SIZE` from game_util.py. -/
def GRID_H : ℤ := 375

/-- `LIGHT_RADIUS` from game_util.py. -/
def LIGHT_RADIUS : ℝ := 300

/-- `RAY_STEP` from game_util.py. -/
def RAY_STEP : ℝ := 5

/-- Python `int(r)` applied to a float: truncation toward zero. -/
noncomputable def pyTrunc (r : ℝ) : ℤ := if 0 ≤ r then ⌊r⌋ else ⌈r⌉

abbrev Grid := List (List ℕ)

abbrev Tile := ℤ × ℤ

/-- `grid[ty][tx]` for bounds-guarded accesses (indices are nonnegative and
within range at every guarded source access on a rectangular grid). -/
def cellAt (g : Grid) (ty tx : ℤ) : ℕ := (g.getD ty.toNat []).getD tx.toNat 0

/-- `len(grid)`. -/
def gridH (g : Grid) : ℤ := g.length

/-- `len(grid[0]) if grid_h > 0 else 0`. -/
def gridW (g : Grid) : ℤ := (g.getD 0 []).length

/-- All rows have the width `len(grid[0])` that the source reads once. -/
def Rectangular (g : Grid) : Prop := ∀ r ∈ g, (r.length : ℤ) = gridW g

/-- World position to tile coordinates: `int(w) // TILE_SIZE` (Python `//`
on ints is floor division). -/
noncomputable def tileOf (w : ℝ × ℝ) : Tile :=
  ((pyTrunc w.1).fdiv TILE_SIZE, (pyTrunc w.2).fdiv TILE_SIZE)

/-! ## Pathfinder (`game_utils/pathfinding.py`) -/

/-- `neighbors(x, y, grid_w, grid_h)`: 4-adjacent tiles in bounds, in the
source's yield order. -/
def neighborTiles (x y gw gh : ℤ) : List Tile :=
  ([(1, 0), (-1, 0), (0, 1), (0, -1)] : List Tile).filterMap (fun d =>
    let nx := x + d.1
    let ny := y + d.2
    if 0 ≤ nx ∧ nx < gw ∧ 0 ≤ ny ∧ ny < gh then some (nx, ny) else none)

/-- `heuristic(ax, ay, bx, by) = abs(ax-bx) + abs(ay-by)`. -/
def heuristic (ax ay bx byy : ℤ) : ℤ := |ax - bx| + |ay - byy|

/-- Entries pushed on the open heap: `(priority, new_cost, (x, y))`. -/
abbrev HeapEntry := ℤ × ℤ × Tile

/-- Python tuple comparison on heap entries (lexicographic). -/
def entryLtB (a b : HeapEntry) : Bool :=
  decide (a.1 < b.1) ||
    (decide (a.1 = b.1) && (decide (a.2.1 < b.2.1) ||
      (decide (a.2.1 = b.2.1) && (decide (a.2.2.1 < b.2.2.1) ||
        (decide (a.2.2.1 = b.2.2.1) && decide (a.2.2.2 < b.2.2.2))))))

/-- Least entry of a nonempty heap, first occurrence among equals. -/
def minEntry (x : HeapEntry) (xs : List HeapEntry) : HeapEntry :=
  xs.foldl (fun m e => if entryLtB e m then e else m) x

/-- Model of `heapq.heappop`: remove a least element under the lexicographic
tuple order (heapq pops some least element; equal tuples are
interchangeable, so this choice is faithful). -/
def popMin (l : List HeapEntry) : Option (HeapEntry × List HeapEntry) :=
  match l with
  | [] => none
  | x :: xs => some (minEntry x xs, (x :: xs).erase (minEntry x xs))

/-- Association-list lookup, most recent binding first: a Python dict whose
assignments are modelled by prepending. -/
def lookupA {β : Type} (k : Tile) : List (Tile × β) → Option β
  | [] => none
  | (k2, v) :: rest => if k = k2 then some v else lookupA k rest

/-- The mutable search state of `find_path`: open heap, `came_from`,
`cost_so_far`. -/
structure AStar where
  openHeap : List HeapEntry
  cameFrom : List (Tile × Option Tile)
  costSoFar : List (Tile × ℤ)

/-- Tile center world coordinates: `(cx*TILE_SIZE + TILE_SIZE//2, cy*TILE_SIZE + TILE_SIZE//2)`. -/
def tileCenter (t : Tile) : ℤ × ℤ := (t.1 * TILE_SIZE + TILE_SIZE / 2, t.2 * TILE_SIZE + TILE_SIZE / 2)

/-- One iteration of the neighbor `for` loop in `find_path` (lines 63-72).
`cost_so_far[current]` is always present when read (the popped tile was
inserted when pushed); `.getD 0` stands in for Python's dict indexing. -/
def expandNeighbor (g : Grid) (goal cur : Tile) (st : AStar) (n : Tile) : AStar :=
  if cellAt g n.2 n.1 ≠ 0 then st
  else
    let newCost := (lookupA cur st.costSoFar).getD 0 + 1
    let doUpd : Bool :=
      match lookupA n st.costSoFar with
      | none => true
      | some c => decide (newCost < c)
    if doUpd then
      { openHeap := st.openHeap ++ [(newCost + heuristic n.1 n.2 goal.1 goal.2, newCost, n)]
        cameFrom := (n, some cur) :: st.cameFrom
        costSoFar := (n, newCost) :: st.costSoFar }
    else st

/-- Path reconstruction (lines 50-60): follow `came_from` links from the goal
back to the start appending tile centers, then reverse.  The links always
reach the start (whose entry is `none`) because costs strictly decrease
along them; the fuel is sized so that the cutoff case is never reached.
A missing key (Python `KeyError`, never hit) is read as `none`. -/
def reconstruct (cf : List (Tile × Option Tile)) : ℕ → Option Tile → List (ℤ × ℤ) → List (ℤ × ℤ)
  | _, none, acc => acc.reverse
  | 0, some _, acc => acc.reverse
  | fuel + 1, some c, acc => reconstruct cf fuel ((lookupA c cf).getD none) (acc ++ [tileCenter c])

/-- The `while open_heap` loop of `find_path` (lines 44-74).  The fuel is
`max_nodes`: Python increments `nodes` at each pop and breaks (returning
`[]`) as soon as `nodes > max_nodes`, i.e. on the `max_nodes + 1`-st pop,
before looking at the popped node; here that pop is the fuel-0 case. -/
def aStarLoop (g : Grid) (gw gh : ℤ) (goal : Tile) : ℕ → AStar → List (ℤ × ℤ)
  | 0, _ => []
  | fuel + 1, st =>
    match popMin st.openHeap with
    | none => []
    | some (e, rest) =>
      let cur := e.2.2
      if cur = goal then reconstruct st.cameFrom (st.cameFrom.length + 1) (some cur) []
      else
        let st1 := (neighborTiles cur.1 cur.2 gw gh).foldl (expandNeighbor g goal cur)
          { st with openHeap := rest }
        aStarLoop g gw gh goal fuel st1

/-- `find_path(grid, start_world, goal_world, max_nodes)` (lines 18-74). -/
noncomputable def find_path (g : Grid) (startW goalW : ℝ × ℝ) (maxNodes : ℕ) : List (ℤ × ℤ) :=
  let gh := gridH g
  let gw := gridW g
  if gw = 0 ∨ gh = 0 then []
  else
    let s := tileOf startW
    let t := tileOf goalW
    if ¬ (0 ≤ s.1 ∧ s.1 < gw ∧ 0 ≤ s.2 ∧ s.2 < gh ∧
          0 ≤ t.1 ∧ t.1 < gw ∧ 0 ≤ t.2 ∧ t.2 < gh) then []
    else if cellAt g s.2 s.1 ≠ 0 ∨ cellAt g t.2 t.1 ≠ 0 then []
    else
      aStarLoop g gw gh t maxNodes
        { openHeap := [(0 + heuristic s.1 s.2 t.1 t.2, 0, s)]
          cameFrom := [(s, none)]
          costSoFar := [(s, 0)] }

/-- 4-adjacency of tiles (one orthogonal step). -/
def adjTile (a b : Tile) : Prop := |a.1 - b.1| + |a.2 - b.2| = 1

/-- Tile inside the `0 ≤ x < grid_w`, `0 ≤ y < grid_h` bounds check. -/
def inBoundsTile (gw gh : ℤ) (t : Tile) : Prop :=
  0 ≤ t.1 ∧ t.1 < gw ∧ 0 ≤ t.2 ∧ t.2 < gh

/-- Loop invariant of the A* search state, relative to grid `g`, dimensions
`gw × gh` and start tile `s`: `came_from` links point from walkable in-bounds
tiles to already-discovered tiles of strictly smaller cost, with `s` the only
root; every heap entry's tile has been discovered. -/
structure AStarInv (g : Grid) (gw gh : ℤ) (s : Tile) (st : AStar) : Prop where
  startNone : lookupA s st.cameFrom = some none
  startCost : lookupA s st.costSoFar = some 0
  onlyStartNone : ∀ k, lookupA k st.cameFrom = some none → k = s
  costNonneg : ∀ k c, lookupA k st.costSoFar = some c → 0 ≤ c
  costBound : ∀ k c, lookupA k st.costSoFar = some c → c ≤ st.cameFrom.length
  domCf : ∀ k, (lookupA k st.cameFrom).isSome → (lookupA k st.costSoFar).isSome
  parentOk : ∀ k p, lookupA k st.cameFrom = some (some p) →
    adjTile k p ∧ inBoundsTile gw gh k ∧ cellAt g k.2 k.1 = 0 ∧
    (lookupA p st.cameFrom).isSome ∧
    ∃ ck cp, lookupA k st.costSoFar = some ck ∧ lookupA p st.costSoFar = some cp ∧ cp < ck
  heapDom : ∀ e ∈ st.openHeap, (lookupA e.2.2 st.cameFrom).isSome

/-- The path contract of `find_path`: the result is empty, or it is the image
under `tileCenter` of a tile sequence leading from the start tile to the goal
tile whose consecutive tiles are 4-adjacent, all in bounds and walkable. -/
def FindPathSound (g : Grid) (startW goalW : ℝ × ℝ) (res : List (ℤ × ℤ)) : Prop :=
  res = [] ∨
  ∃ tiles : List Tile,
    res = tiles.map tileCenter ∧
    tiles.head? = some (tileOf startW) ∧
    tiles.getLast? = some (tileOf goalW) ∧
    List.Chain' adjTile tiles ∧
    ∀ t ∈ tiles, inBoundsTile (gridW g) (gridH g) t ∧ cellAt g t.2 t.1 = 0

/-! ### Wall blast (`_perform_power_blast`, deadlight.py lines 748-766) -/

/-- Python `range(-radius, radius + 1)` as a list of offsets. -/
def offsetRange (r : ℤ) : List ℤ :=
  (List.range (2 * r + 1).toNat).map (fun (i : ℕ) => -r + (i : ℤ))

/-- `grid[ty][tx] = v` for in-range indices. -/
def setCell (g : Grid) (ty tx : ℤ) (v : ℕ) : Grid :=
  g.set ty.toNat ((g.getD ty.toNat []).set tx.toNat v)

/-- One iteration of `_perform_power_blast`'s inner loop: clear the cell at
`(ty, tx)` if it is in the bounds read at entry and holds a destructible
code (1 or 2). -/
def blastAt (w h : ℤ) (g : Grid) (ty tx : ℤ) : Grid :=
  if 0 ≤ tx ∧ tx < w ∧ 0 ≤ ty ∧ ty < h then
    if cellAt g ty tx = 1 ∨ cellAt g ty tx = 2 then setCell g ty tx 0 else g
  else g

/-- The grid effect of `_perform_power_blast(grid, radius_tiles)` (deadlight.py
lines 748-764): clear every destructible cell of the `(2r+1) × (2r+1)` tile
square centred on the boss tile, `r = max(1, int(radius_tiles))`.  The final
`_ensure_on_floor` call only moves the boss, never the grid. -/
noncomputable def performPowerBlastGrid (x y : ℝ) (radiusTiles : ℤ) (g : Grid) : Grid :=
  let tx := (pyTrunc x).fdiv TILE_SIZE
  let ty := (pyTrunc y).fdiv TILE_SIZE
  let h := gridH g
  let w := gridW g
  if w = 0 then g
  else
    let radius := max 1 radiusTiles
    (offsetRange radius).foldl (fun g1 dy =>
      (offsetRange radius).foldl (fun g2 dx => blastAt w h g2 (ty + dy) (tx + dx)) g1) g

/-- Per-target effect of one blast iteration (proof device): destructible
codes are cleared, all others kept. -/
def blastClear (c : ℕ) : ℕ := if c = 1 ∨ c = 2 then 0 else c

/-- The blast iteration aimed at `(ty, tx)` rewrites cell `(i, j)` (proof
device). -/
def BlastHit (w h ty tx i j : ℤ) : Prop :=
  i = ty ∧ j = tx ∧ 0 ≤ tx ∧ tx < w ∧ 0 ≤ ty ∧ ty < h

instance (w h ty tx i j : ℤ) : Decidable (BlastHit w h ty tx i j) :=
  decidable_of_iff (i = ty ∧ j = tx ∧ 0 ≤ tx ∧ tx < w ∧ 0 ≤ ty ∧ ty < h) Iff.rfl

/-- Dimensions read once at blast entry stay valid for the evolving grid
(proof device). -/
def DimsOk (w h : ℤ) (g : Grid) : Prop :=
  (g.length : ℤ) = h ∧ ∀ n : ℕ, n < g.length → ((g.getD n []).length : ℤ) = w

/-! ### Raycaster (`game_util.py` lines 17-44) -/

/-- `is_wall(grid, px, py)`: out of the global `GRID_W × GRID_H` bounds, or a
cell coded 1, 2 or 3. -/
noncomputable def is_wall (g : Grid) (px pyy : ℝ) : Bool :=
  let tx := (pyTrunc px).fdiv TILE_SIZE
  let ty := (pyTrunc pyy).fdiv TILE_SIZE
  if tx < 0 ∨ ty < 0 ∨ GRID_W ≤ tx ∨ GRID_H ≤ ty then true
  else decide (cellAt g ty tx = 1 ∨ cellAt g ty tx = 2 ∨ cellAt g ty tx = 3)

/-- The `while dist < max_distance` march of `cast_ray`: advance by
`RAY_STEP`, return the sample on leaving the map, the sample pulled back by 3
on the first blocked sample, or the point at `max_distance` when the march
completes.  The fuel bounds the iterations and is sized by the caller so the
cutoff case (which returns the loop-exit value) is never reached. -/
noncomputable def castRayLoop (g : Grid) (ox oy dx dy maxD : ℝ) : ℕ → ℝ → ℝ × ℝ
  | 0, _ => (ox + dx * maxD, oy + dy * maxD)
  | fuel + 1, dist =>
    if dist < maxD then
      let d2 := dist + RAY_STEP
      let x := ox + dx * d2
      let y := oy + dy * d2
      if x < 0 ∨ y < 0 ∨ MAP_SIZE ≤ x ∨ MAP_SIZE ≤ y then (x, y)
      else if is_wall g x y then (x - dx * 3, y - dy * 3)
      else castRayLoop g ox oy dx dy maxD fuel d2
    else (ox + dx * maxD, oy + dy * maxD)

/-- `math.radians`. -/
noncomputable def radians (a : ℝ) : ℝ := a * Real.pi / 180

/-- `math.degrees`. -/
noncomputable def degrees (a : ℝ) : ℝ := a * 180 / Real.pi

/-- Python float `%` (result has the sign of the divisor). -/
noncomputable def pyMod (a b : ℝ) : ℝ := a - b * ⌊a / b⌋

/-- `math.atan2(y, x)` (C library convention, idealised over the reals). -/
noncomputable def pyAtan2 (y x : ℝ) : ℝ :=
  if 0 < x then Real.arctan (y / x)
  else if x < 0 then
    (if 0 ≤ y then Real.arctan (y / x) + Real.pi else Real.arctan (y / x) - Real.pi)
  else
    (if 0 < y then Real.pi / 2 else if y < 0 then -(Real.pi / 2) else 0)

/-- `cast_ray(grid, ox, oy, angle, max_distance)` (game_util.py lines 27-44). -/
noncomputable def cast_ray (g : Grid) (ox oy angle : ℝ) (maxDistance : Option ℝ) : ℝ × ℝ :=
  let md := maxDistance.getD LIGHT_RADIUS
  let ang := radians angle
  let dx := Real.cos ang
  let dy := Real.sin ang
  castRayLoop g ox oy dx dy md (⌈md / RAY_STEP⌉₊ + 1) 0

/-! ### Boss controller (`deadlight.py`) -/

/-- The state of `DeadlightBoss`.  Every attribute set in `__init__` (or the
dynamically attached `_under_player_light`, read with a `getattr` default of
`False`) is a field; `_astar_distance_threshold = float('inf')` is omitted
because the code never reads it (`if True:` replaced the distance test), and
the `min_radiance` dynamic attribute is only read by drawing code. -/
structure DeadlightBoss where
  x : ℝ
  y : ℝ
  base_radiance : ℝ
  alive : Bool
  health : ℝ
  health_max : ℝ
  radiance : ℝ
  speed : ℝ
  base_speed : ℝ
  min_speed : ℝ
  max_speed : ℝ
  target : Option (ℝ × ℝ)
  path : List (ℤ × ℤ)
  path_index : ℕ
  think_timer : ℝ
  think_interval : ℝ
  base_think_interval : ℝ
  follow_player_mode : Bool
  guard_target : Option (ℝ × ℝ)
  chase_mode : Bool
  chase_timer : ℝ
  chase_duration : ℝ
  chase_path_update_timer : ℝ
  chase_path_update_interval : ℝ
  last_player_pos : Option (ℝ × ℝ)
  player_move_threshold : ℝ
  player_teleport_threshold : ℝ
  simple_chase_stuck_timer : ℝ
  simple_chase_stuck_threshold : ℝ
  simple_chase_last_pos : ℝ × ℝ
  simple_chase_stuck_move_epsilon : ℝ
  astar_stuck_timer : ℝ
  astar_stuck_threshold : ℝ
  astar_last_pos : ℝ × ℝ
  astar_stuck_move_epsilon : ℝ
  preferred_direction : Option (ℝ × ℝ)
  direction_persistence_timer : ℝ
  direction_persistence_duration : ℝ
  last_successful_direction : Option (ℝ × ℝ)
  random_direction : ℝ
  random_move_timer : ℝ
  random_move_duration : ℝ
  stuck_timer : ℝ
  stuck_threshold : ℝ
  stuck_move_epsilon : ℝ
  last_pos : ℝ × ℝ
  stuck_blast_radius_tiles : ℤ
  space_blast_radius_tiles : ℤ
  path_blast_threshold : ℝ
  space_timer : ℝ
  space_threshold : ℝ
  space_required_tiles : ℤ
  dots : List (ℤ × ℤ)
  escape_mode : Bool
  escape_speed_multiplier : ℝ
  under_player_light_speed_multiplier : ℝ
  under_player_light : Bool
  flicker_timer : ℝ

/-- `DeadlightBoss.__init__(x, y, base_radiance)` (deadlight.py lines
21-102).  `rd` is the `random.uniform(0, 2π)` draw for the initial random
heading, made an explicit argument. -/
def mkDeadlightBoss (x y base_radiance rd : ℝ) : DeadlightBoss :=
  { x := x
    y := y
    base_radiance := base_radiance
    alive := true
    health := base_radiance
    health_max := base_radiance
    radiance := base_radiance
    speed := 200
    base_speed := 200
    min_speed := 300
    max_speed := 450
    target := none
    path := []
    path_index := 0
    think_timer := 0
    think_interval := 2.5
    base_think_interval := 2.5
    follow_player_mode := false
    guard_target := none
    chase_mode := false
    chase_timer := 0
    chase_duration := 60
    chase_path_update_timer := 0
    chase_path_update_interval := 1.5
    last_player_pos := none
    player_move_threshold := 40
    player_teleport_threshold := 200
    simple_chase_stuck_timer := 0
    simple_chase_stuck_threshold := 0.5
    simple_chase_last_pos := (x, y)
    simple_chase_stuck_move_epsilon := 4
    astar_stuck_timer := 0
    astar_stuck_threshold := 0.5
    astar_last_pos := (x, y)
    astar_stuck_move_epsilon := 4
    preferred_direction := none
    direction_persistence_timer := 0
    direction_persistence_duration := 0.15
    last_successful_direction := none
    random_direction := rd
    random_move_timer := 0
    random_move_duration := 2
    stuck_timer := 0
    stuck_threshold := 3
    stuck_move_epsilon := 3
    last_pos := (x, y)
    stuck_blast_radius_tiles := 8
    space_blast_radius_tiles := 12
    path_blast_threshold := 3
    space_timer := 0
    space_threshold := 999
    space_required_tiles := 1
    dots := [(-18, 0), (18, 0), (0, -18)]
    escape_mode := false
    escape_speed_multiplier := 1.5
    under_player_light_speed_multiplier := 5
    under_player_light := false
    flicker_timer := 0 }

/-- `start_chase(extra_time)` (deadlight.py lines 104-122). -/
def start_chase (s : DeadlightBoss) (extra_time : Option ℝ) : DeadlightBoss :=
  let added := extra_time.getD s.chase_duration
  { s with
    chase_mode := true
    chase_timer := max 0 s.chase_timer + max 0 added
    path := []
    path_index := 0
    simple_chase_stuck_timer := 0
    simple_chase_last_pos := (s.x, s.y)
    astar_stuck_timer := 0
    astar_last_pos := (s.x, s.y)
    preferred_direction := none
    direction_persistence_timer := 0
    last_successful_direction := none
    last_player_pos := none }

/-- `player_in_radiance(px, py, grid)` (deadlight.py lines 445-462).  The
method also refreshes `self.radiance` from health; the result pairs the
updated boss with the boolean answer. -/
noncomputable def player_in_radiance (s : DeadlightBoss) (px pyy : ℝ) (g : Grid) :
    DeadlightBoss × Bool :=
  if s.alive = false then (s, false)
  else
    let s1 := { s with radiance := max 0 s.health }
    let dx := px - s.x
    let dy := pyy - s.y
    let dist_player := Real.sqrt (dx ^ 2 + dy ^ 2)
    if s1.radiance < dist_player then (s1, false)
    else
      let ang := pyMod (degrees (pyAtan2 dy dx)) 360
      let hit := cast_ray g s.x s.y ang (some s1.radiance)
      let dist_hit := Real.sqrt ((hit.1 - s.x) ^ 2 + (hit.2 - s.y) ^ 2)
      (s1, decide (dist_player ≤ dist_hit + 1e-6))

/-- `drain_radiance(amount)` (deadlight.py lines 464-471). -/
noncomputable def drain_radiance (s : DeadlightBoss) (amount : ℝ) : DeadlightBoss :=
  if amount ≤ 0 then s
  else
    let h := max 0 (s.health - amount)
    { s with
      health := h
      radiance := max 0 h
      alive := if h ≤ 0 then false else s.alive }

/-- `take_blast(px, py, blast_radius, all_entities_dead)` (lines 473-481). -/
noncomputable def take_blast (s : DeadlightBoss) (px pyy blast_radius : ℝ)
    (all_entities_dead : Bool) : DeadlightBoss × Bool :=
  if s.alive = false then (s, false)
  else
    let d := Real.sqrt ((s.x - px) ^ 2 + (s.y - pyy) ^ 2)
    if all_entities_dead = true ∧ d ≤ blast_radius then ({ s with alive := false }, true)
    else (s, false)

/-- `apply_multiplier(mult)` (deadlight.py lines 483-491).  With `mult = 0`
Python's division raises `ZeroDivisionError` after the two multiplications
and the `except` clause swallows it, leaving the think interval unchanged. -/
noncomputable def apply_multiplier (s : DeadlightBoss) (mult : ℝ) : DeadlightBoss :=
  if mult = 0 then { s with speed := s.speed * mult, base_speed := s.base_speed * mult }
  else
    { s with
      speed := s.speed * mult
      base_speed := s.base_speed * mult
      think_interval := max 0.35 (s.think_interval / mult) }

/-- `get_chase_time_remaining()` (deadlight.py lines 493-497). -/
noncomputable def get_chase_time_remaining (s : DeadlightBoss) : ℝ :=
  if s.chase_mode = true then max 0 s.chase_timer else 0

/-- `is_chasing()` (deadlight.py lines 499-501). -/
def is_chasing (s : DeadlightBoss) : Bool := s.chase_mode

/-! ### The per-tick `update` (deadlight.py lines 124-443) and its helpers.

`random.uniform(0, 2π)` draws are modelled by consuming one value of the
`rng` stream and using it directly as the sampled angle; `random.random()`
draws consume one value `u` and the caller multiplies by τ as the source
does.  The wall-clock duration measured around each `find_path` call is
modelled by consuming one value of the `tOr` oracle stream. -/

/-- `_move_if_free(nx, ny, grid)` (deadlight.py lines 563-570). -/
noncomputable def move_if_free (s : DeadlightBoss) (nx ny : ℝ) (g : Grid) :
    DeadlightBoss × Bool :=
  let txn := (pyTrunc nx).fdiv TILE_SIZE
  let tyn := (pyTrunc ny).fdiv TILE_SIZE
  if 0 ≤ tyn ∧ tyn < gridH g ∧ 0 ≤ txn ∧ txn < gridW g ∧ cellAt g tyn txn = 0 then
    ({ s with x := nx, y := ny }, true)
  else (s, false)

/-- `_attempt_jitter_move(magnitude, grid)` (lines 572-580): one
`random.random()` draw `u`, try the angle `u * τ`, then its opposite. -/
noncomputable def attempt_jitter_move (s : DeadlightBoss) (magnitude : ℝ) (g : Grid)
    (rng : List ℝ) : DeadlightBoss × List ℝ :=
  let u := rng.headD 0
  let rng1 := rng.tail
  let angle := u * (2 * Real.pi)
  let r1 := move_if_free s (s.x + Real.cos angle * magnitude)
    (s.y + Real.sin angle * magnitude) g
  if r1.2 = true then (r1.1, rng1)
  else
    ((move_if_free s (s.x - Real.cos angle * magnitude)
      (s.y - Real.sin angle * magnitude) g).1, rng1)

/-- `_ensure_on_floor(grid)` (lines 768-786): if the boss tile is not
walkable, relocate to the first walkable tile scanning radii r = 1..4 in the
source's iteration order. -/
noncomputable def ensure_on_floor (s : DeadlightBoss) (g : Grid) : DeadlightBoss :=
  let tx := (pyTrunc s.x).fdiv TILE_SIZE
  let ty := (pyTrunc s.y).fdiv TILE_SIZE
  if gridW g = 0 then s
  else if 0 ≤ tx ∧ tx < gridW g ∧ 0 ≤ ty ∧ ty < gridH g ∧ cellAt g ty tx = 0 then s
  else
    let cands := (List.range 4).bind (fun ri =>
      (offsetRange ((ri : ℤ) + 1)).bind (fun dy =>
        (offsetRange ((ri : ℤ) + 1)).map (fun dx => (tx + dx, ty + dy))))
    match cands.find? (fun p =>
        decide (0 ≤ p.1) && decide (p.1 < gridW g) && decide (0 ≤ p.2) &&
        decide (p.2 < gridH g) && decide (cellAt g p.2 p.1 = 0)) with
    | some p =>
        { s with x := ((p.1 * TILE_SIZE : ℤ) : ℝ) + (TILE_SIZE : ℝ) / 2,
                 y := ((p.2 * TILE_SIZE : ℤ) : ℝ) + (TILE_SIZE : ℝ) / 2 }
    | none => s

/-- `_perform_power_blast(grid, radius_tiles)` (lines 748-766): clear the
destructible square (grid effect in `performPowerBlastGrid`) and re-seat the
boss on a walkable tile. -/
noncomputable def perform_power_blast (s : DeadlightBoss) (g : Grid) (radiusTiles : ℤ) :
    DeadlightBoss × Grid :=
  if gridW g = 0 then (s, g)
  else
    let g2 := performPowerBlastGrid s.x s.y radiusTiles g
    (ensure_on_floor s g2, g2)

/-- `_update_stuck_state(dt, grid)` (lines 736-746). -/
noncomputable def update_stuck_state (s : DeadlightBoss) (dt : ℝ) (g : Grid) :
    DeadlightBoss × Grid :=
  let dist := Real.sqrt ((s.x - s.last_pos.1) ^ 2 + (s.y - s.last_pos.2) ^ 2)
  if s.stuck_move_epsilon ≤ dist then
    ({ s with stuck_timer := 0, last_pos := (s.x, s.y) }, g)
  else
    let s1 := { s with stuck_timer := s.stuck_timer + dt }
    if s1.stuck_threshold ≤ s1.stuck_timer then
      let r := perform_power_blast s1 g s1.stuck_blast_radius_tiles
      ({ r.1 with stuck_timer := 0, last_pos := (r.1.x, r.1.y) }, r.2)
    else (s1, g)

/-- `_has_cardinal_space(grid)` (lines 799-817). -/
noncomputable def has_cardinal_space (s : DeadlightBoss) (g : Grid) : Bool :=
  let tx := (pyTrunc s.x).fdiv TILE_SIZE
  let ty := (pyTrunc s.y).fdiv TILE_SIZE
  if gridW g = 0 then true
  else
    ([((0 : ℤ), (-1 : ℤ)), (0, 1), (-1, 0), (1, 0)]).any (fun d =>
      decide (0 ≤ tx + d.1) && decide (tx + d.1 < gridW g) &&
      decide (0 ≤ ty + d.2) && decide (ty + d.2 < gridH g) &&
      decide (cellAt g (ty + d.2) (tx + d.1) = 0))

/-- `_update_space_state(dt, grid)` (lines 788-797). -/
noncomputable def update_space_state (s : DeadlightBoss) (dt : ℝ) (g : Grid) :
    DeadlightBoss × Grid :=
  if has_cardinal_space s g = true then ({ s with space_timer := 0 }, g)
  else
    let s1 := { s with space_timer := s.space_timer + dt }
    if s1.space_threshold ≤ s1.space_timer then
      let r := perform_power_blast s1 g s1.space_blast_radius_tiles
      ({ r.1 with space_timer := 0 }, r.2)
    else (s1, g)

/-- `_compute_path(grid, goal)` (lines 819-853).  `find_path` is total in
this model, so the `except` arms are dead; the measured wall-clock duration
comes from the `tOr` oracle, and a slow computation blasts nearby walls and
retries once. -/
noncomputable def compute_path (s : DeadlightBoss) (g : Grid) (goal : ℝ × ℝ)
    (tOr : List ℝ) : List (ℤ × ℤ) × DeadlightBoss × Grid × List ℝ :=
  let dur := tOr.headD 0
  let tOr1 := tOr.tail
  let dist_to_goal := Real.sqrt ((goal.1 - s.x) ^ 2 + (goal.2 - s.y) ^ 2)
  let maxNodes : ℕ :=
    if 500 < dist_to_goal then 1000 else if 1000 < dist_to_goal then 500 else 2000
  let path := find_path g (s.x, s.y) goal maxNodes
  if s.path_blast_threshold ≤ dur then
    let r := perform_power_blast s g s.stuck_blast_radius_tiles
    (find_path r.2 (r.1.x, r.1.y) goal maxNodes, r.1, r.2, tOr1)
  else (path, s, g, tOr1)

/-- The base speed computed from health every tick (update lines 134-139):
`min_speed + (max_speed - min_speed) * (1 - clamp01(health / max(1, health_max)))`. -/
noncomputable def updateBaseSpeed (s : DeadlightBoss) : ℝ :=
  s.min_speed + (s.max_speed - s.min_speed) * (1 - max 0 (min 1 (s.health / max 1 s.health_max)))

/-- The chase-mode tick of `update` (lines 172-275), entered with the speed
prologue and chase-timer countdown already applied. -/
noncomputable def chase_tick (s : DeadlightBoss) (dt px pyy : ℝ) (g : Grid)
    (rng tOr : List ℝ) : DeadlightBoss × Grid × List ℝ × List ℝ :=
  let sA := { s with chase_path_update_timer := s.chase_path_update_timer + dt }
  let nr : Bool × DeadlightBoss :=
    if sA.path = [] then (true, sA)
    else
      match sA.last_player_pos with
      | some lpp =>
        let moved := Real.sqrt ((px - lpp.1) ^ 2 + (pyy - lpp.2) ^ 2)
        if sA.player_teleport_threshold ≤ moved then
          (true, { sA with chase_path_update_timer := sA.chase_path_update_interval })
        else if sA.chase_path_update_interval ≤ sA.chase_path_update_timer then
          (decide (sA.player_move_threshold ≤ moved), sA)
        else (false, sA)
      | none =>
        if sA.chase_path_update_interval ≤ sA.chase_path_update_timer then (true, sA)
        else (false, sA)
  let sB := nr.2
  let recalc : DeadlightBoss × Grid × List ℝ :=
    if nr.1 = true then
      let r := compute_path { sB with chase_path_update_timer := 0 } g (px, pyy) tOr
      ({ r.2.1 with
          path := r.1
          path_index := 0
          astar_stuck_timer := 0
          astar_last_pos := (r.2.1.x, r.2.1.y)
          last_player_pos := some (px, pyy) },
       r.2.2.1, r.2.2.2)
    else (sB, g, tOr)
  let sC := recalc.1
  let gC := recalc.2.1
  let tOrC := recalc.2.2
  let follow : DeadlightBoss × Bool :=
    if sC.path ≠ [] ∧ sC.path_index < sC.path.length then
      let sD0 :=
        if (sC.last_player_pos).isSome then
          let final := sC.path.getLastD (0, 0)
          let dist_to_final := Real.sqrt (((final.1 : ℝ) - px) ^ 2 + ((final.2 : ℝ) - pyy) ^ 2)
          if 100 < dist_to_final then
            { sC with
              path := []
              path_index := 0
              chase_path_update_timer := sC.chase_path_update_interval }
          else sC
        else sC
      if sD0.path ≠ [] ∧ sD0.path_index < sD0.path.length then
        let t := sD0.path.getD sD0.path_index (0, 0)
        let dx := (t.1 : ℝ) - sD0.x
        let dy := (t.2 : ℝ) - sD0.y
        let dist := Real.sqrt (dx ^ 2 + dy ^ 2)
        if dist < 6 then ({ sD0 with path_index := sD0.path_index + 1 }, true)
        else
          let old_x := sD0.x
          let old_y := sD0.y
          let r := move_if_free sD0 (sD0.x + dx / dist * sD0.speed * dt)
            (sD0.y + dy / dist * sD0.speed * dt) gC
          if r.2 = true then
            (r.1, decide (0.1 < |r.1.x - old_x|) || decide (0.1 < |r.1.y - old_y|))
          else (r.1, false)
      else (sD0, false)
    else (sC, false)
  let sD := follow.1
  let stuck : DeadlightBoss × List ℝ :=
    if follow.2 = true then
      ({ sD with astar_stuck_timer := 0, astar_last_pos := (sD.x, sD.y) }, rng)
    else
      let dist_moved := Real.sqrt ((sD.x - sD.astar_last_pos.1) ^ 2 +
        (sD.y - sD.astar_last_pos.2) ^ 2)
      if sD.astar_stuck_move_epsilon ≤ dist_moved then
        ({ sD with astar_stuck_timer := 0, astar_last_pos := (sD.x, sD.y) }, rng)
      else
        let sD1 := { sD with astar_stuck_timer := sD.astar_stuck_timer + dt }
        if sD1.astar_stuck_threshold ≤ sD1.astar_stuck_timer then
          let sD2 := { sD1 with
            chase_path_update_timer := sD1.chase_path_update_interval
            astar_stuck_timer := 0 }
          attempt_jitter_move sD2 (sD2.speed * dt * 0.5) gC rng
        else (sD1, rng)
  let sE := stuck.1
  let rngE := stuck.2
  let noPath : DeadlightBoss × List ℝ :=
    if sE.path = [] ∨ sE.path.length ≤ sE.path_index then
      attempt_jitter_move sE (sE.speed * dt * 0.3) gC rngE
    else (sE, rngE)
  let r1 := update_stuck_state noPath.1 dt gC
  let r2 := update_space_state r1.1 dt r1.2
  (r2.1, r2.2, noPath.2, tOrC)

/-- The escape-target computation of the escape branch (lines 299-366): the
clamped point just outside the player's light, snapped to the nearest floor
tile (scanning a 21×21 tile window, strict-improvement nearest). -/
noncomputable def escapeFinalTarget (s : DeadlightBoss) (px pyy : ℝ) (g : Grid)
    (player_radiance : Option ℝ) : ℝ × ℝ :=
  let dx := s.x - px
  let dy := s.y - pyy
  let dist_to_player := Real.sqrt (dx ^ 2 + dy ^ 2)
  let escape_dir_x := dx / dist_to_player
  let escape_dir_y := dy / dist_to_player
  let player_light_radius := player_radiance.getD 250
  let escape_distance := player_light_radius + 150
  let escape_target_x0 := px + escape_dir_x * escape_distance
  let escape_target_y0 := pyy + escape_dir_y * escape_distance
  let grid_h := gridH g
  let grid_w := gridW g
  let map_max_x : ℝ := if 0 < grid_w then ((grid_w * TILE_SIZE : ℤ) : ℝ) else 1700
  let map_max_y : ℝ := if 0 < grid_h then ((grid_h * TILE_SIZE : ℤ) : ℝ) else 950
  let escape_target_x := max ((TILE_SIZE : ℝ)) (min (map_max_x - (TILE_SIZE : ℝ)) escape_target_x0)
  let escape_target_y := max ((TILE_SIZE : ℝ)) (min (map_max_y - (TILE_SIZE : ℝ)) escape_target_y0)
  let target_tx : ℤ := ⌊escape_target_x / (TILE_SIZE : ℝ)⌋
  let target_ty : ℤ := ⌊escape_target_y / (TILE_SIZE : ℝ)⌋
  if 0 ≤ target_tx ∧ target_tx < grid_w ∧ 0 ≤ target_ty ∧ target_ty < grid_h ∧
      cellAt g target_ty target_tx = 0 then
    (((target_tx * TILE_SIZE : ℤ) : ℝ) + ((TILE_SIZE / 2 : ℤ) : ℝ),
     ((target_ty * TILE_SIZE : ℤ) : ℝ) + ((TILE_SIZE / 2 : ℤ) : ℝ))
  else
    let best := ((offsetRange 10).bind (fun dys =>
        (offsetRange 10).map (fun dxs => (dys, dxs)))).foldl
      (fun (acc : Option (ℝ × ℝ × ℝ)) dp =>
        let check_tx := target_tx + dp.2
        let check_ty := target_ty + dp.1
        if 0 ≤ check_tx ∧ check_tx < grid_w ∧ 0 ≤ check_ty ∧ check_ty < grid_h ∧
            cellAt g check_ty check_tx = 0 then
          let fx := ((check_tx * TILE_SIZE : ℤ) : ℝ) + ((TILE_SIZE / 2 : ℤ) : ℝ)
          let fy := ((check_ty * TILE_SIZE : ℤ) : ℝ) + ((TILE_SIZE / 2 : ℤ) : ℝ)
          let d := Real.sqrt ((fx - escape_target_x) ^ 2 + (fy - escape_target_y) ^ 2)
          match acc with
          | none => some (d, fx, fy)
          | some b => if d < b.1 then some (d, fx, fy) else acc
        else acc) none
    match best with
    | some b => (b.2.1, b.2.2)
    | none => (escape_target_x, escape_target_y)

/-- The escape-path following step (lines 381-397): advance the waypoint
index inside radius 8, otherwise move toward the waypoint; returns the
source's `moved_this_frame` flag. -/
noncomputable def escapePathFollow (s : DeadlightBoss) (dt : ℝ) (g : Grid) :
    DeadlightBoss × Bool :=
  if s.path ≠ [] ∧ s.path_index < s.path.length then
    let t := s.path.getD s.path_index (0, 0)
    let fdx := (t.1 : ℝ) - s.x
    let fdy := (t.2 : ℝ) - s.y
    let dist := Real.sqrt (fdx ^ 2 + fdy ^ 2)
    if dist < 8 then ({ s with path_index := s.path_index + 1 }, true)
    else if 0 < dist then
      let old_x := s.x
      let old_y := s.y
      let r := move_if_free s (s.x + fdx / dist * s.speed * dt)
        (s.y + fdy / dist * s.speed * dt) g
      if r.2 = true then
        (r.1, decide (0.1 < |r.1.x - old_x|) || decide (0.1 < |r.1.y - old_y|))
      else (r.1, false)
    else (s, false)
  else (s, false)

/-- The escape-mode stuck bookkeeping (lines 406-420), applied to the boss
after the follow / jitter moves with the tick's `moved_this_frame` flag. -/
noncomputable def escapeStuckCheck (s : DeadlightBoss) (dt : ℝ) (moved : Bool) :
    DeadlightBoss :=
  if moved = true then
    { s with astar_stuck_timer := 0, astar_last_pos := (s.x, s.y) }
  else
    let dist_moved := Real.sqrt ((s.x - s.astar_last_pos.1) ^ 2 +
      (s.y - s.astar_last_pos.2) ^ 2)
    if (4 : ℝ) ≤ dist_moved then
      { s with astar_stuck_timer := 0, astar_last_pos := (s.x, s.y) }
    else
      let s1 := { s with astar_stuck_timer := s.astar_stuck_timer + dt }
      if (0.3 : ℝ) ≤ s1.astar_stuck_timer then
        { s1 with chase_path_update_timer := 0.8, astar_stuck_timer := 0, path := [] }
      else s1

/-- The escape-mode tick of `update` (lines 290-420), entered after the
baseline restore.  Returns the updated boss, grid and oracle streams. -/
noncomputable def escape_tick (s : DeadlightBoss) (dt px pyy : ℝ) (g : Grid)
    (player_radiance : Option ℝ) (rng tOr : List ℝ) :
    DeadlightBoss × Grid × List ℝ × List ℝ :=
  let dx := s.x - px
  let dy := s.y - pyy
  let dist_to_player := Real.sqrt (dx ^ 2 + dy ^ 2)
  if 0 < dist_to_player then
    let final_target := escapeFinalTarget s px pyy g player_radiance
    let sA := { s with chase_path_update_timer := s.chase_path_update_timer + dt }
    let upd : DeadlightBoss × Grid × List ℝ :=
      if sA.path = [] ∨ (0.8 : ℝ) ≤ sA.chase_path_update_timer ∨
          sA.path.length ≤ sA.path_index then
        let r := compute_path { sA with chase_path_update_timer := 0 } g final_target tOr
        ({ r.2.1 with path := r.1, path_index := 0 }, r.2.2.1, r.2.2.2)
      else (sA, g, tOr)
    let follow := escapePathFollow upd.1 dt upd.2.1
    let jit : DeadlightBoss × List ℝ :=
      if follow.2 = false then
        attempt_jitter_move { follow.1 with chase_path_update_timer := 0.8 }
          ((follow.1).speed * dt * 0.5) upd.2.1 rng
      else (follow.1, rng)
    (escapeStuckCheck jit.1 dt follow.2, upd.2.1, jit.2, upd.2.2)
  else (s, g, rng, tOr)

/-- The random-search tick of `update` (lines 422-439). -/
noncomputable def random_tick (s : DeadlightBoss) (dt : ℝ) (g : Grid) (rng : List ℝ) :
    DeadlightBoss × List ℝ :=
  let s1 := { s with random_move_timer := s.random_move_timer + dt }
  let roll : DeadlightBoss × List ℝ :=
    if s1.random_move_duration ≤ s1.random_move_timer then
      ({ s1 with random_move_timer := 0, random_direction := rng.headD 0 }, rng.tail)
    else (s1, rng)
  let s2 := roll.1
  let rng2 := roll.2
  let move_dist := s2.speed * dt
  let r := move_if_free s2 (s2.x + Real.cos s2.random_direction * move_dist)
    (s2.y + Real.sin s2.random_direction * move_dist) g
  if r.2 = false then
    let s3 := { r.1 with random_direction := rng2.headD 0 }
    let rng3 := rng2.tail
    ((move_if_free s3 (s3.x + Real.cos s3.random_direction * move_dist)
      (s3.y + Real.sin s3.random_direction * move_dist) g).1, rng3)
  else (r.1, rng2)

/-- `update(dt, player_x, player_y, grid, player_radiance)` (deadlight.py
lines 124-443). -/
noncomputable def update (s : DeadlightBoss) (dt px pyy : ℝ) (g : Grid)
    (player_radiance : Option ℝ) (rng tOr : List ℝ) :
    DeadlightBoss × Grid × List ℝ × List ℝ :=
  if s.alive = false then (s, g, rng, tOr)
  else
    let base_speed := updateBaseSpeed s
    let speed_mult := s.escape_speed_multiplier *
      (if s.under_player_light = true then s.under_player_light_speed_multiplier else 1)
    let s2 := { s with
      flicker_timer := s.flicker_timer + dt
      radiance := max 0 s.health
      speed := if s.escape_mode = true then base_speed * speed_mult else base_speed
      base_speed := base_speed }
    let expire : DeadlightBoss × List ℝ :=
      if s2.chase_mode = true then
        let s2a := { s2 with chase_timer := s2.chase_timer - dt }
        if s2a.chase_timer ≤ 0 then
          ({ s2a with
              chase_mode := false
              chase_timer := 0
              path := []
              path_index := 0
              simple_chase_stuck_timer := 0
              simple_chase_last_pos := (s2a.x, s2a.y)
              random_direction := rng.headD 0 }, rng.tail)
        else (s2a, rng)
      else (s2, rng)
    let s3 := expire.1
    let rng3 := expire.2
    if s3.chase_mode = true then chase_tick s3 dt px pyy g rng3 tOr
    else
      let s4 := { s3 with
        follow_player_mode := false
        guard_target := none
        speed := s3.base_speed
        think_interval := s3.base_think_interval }
      let afterMode : DeadlightBoss × Grid × List ℝ × List ℝ :=
        if s4.escape_mode = true then escape_tick s4 dt px pyy g player_radiance rng3 tOr
        else
          let r := random_tick s4 dt g rng3
          (r.1, g, r.2, tOr)
      let r1 := update_stuck_state afterMode.1 dt afterMode.2.1
      let r2 := update_space_state r1.1 dt r1.2
      (r2.1, r2.2, afterMode.2.2.1, afterMode.2.2.2)

/-! ### Ray-march sample points (proof devices for the raycaster contracts) -/

/-- The x direction component `cos(radians(angle))` computed by `cast_ray`. -/
noncomputable def rayDirX (angle : ℝ) : ℝ := Real.cos (radians angle)

/-- The y direction component `sin(radians(angle))` computed by `cast_ray`. -/
noncomputable def rayDirY (angle : ℝ) : ℝ := Real.sin (radians angle)

/-- The `m`-th marched sample point of `cast_ray` (at distance `m * RAY_STEP`). -/
noncomputable def raySample (ox oy angle : ℝ) (m : ℕ) : ℝ × ℝ :=
  (ox + rayDirX angle * ((m : ℝ) * RAY_STEP), oy + rayDirY angle * ((m : ℝ) * RAY_STEP))

/-- Inside the `MAP_SIZE` square (the ray march's exit check, negated). -/
def inMapPt (p : ℝ × ℝ) : Prop :=
  ¬ (p.1 < 0 ∨ p.2 < 0 ∨ MAP_SIZE ≤ p.1 ∨ MAP_SIZE ≤ p.2)

/-- Concrete fixture: a walkable corridor in row 0 ending at a generated wall
in tile column 3 (near edge at world x = 24). -/
def corridorGrid : Grid := [[0, 0, 0, 1]]

/-- Concrete fixture: a mostly open 5 × 7 room with a single generated wall
at tile (column 3, row 3) — world square [24,32) × [24,32). -/
def occlusionGrid : Grid :=
  [[0, 0, 0, 0, 0, 0, 0],
   [0, 0, 0, 0, 0, 0, 0],
   [0, 0, 0, 0, 0, 0, 0],
   [0, 0, 0, 1, 0, 0, 0],
   [0, 0, 0, 0, 0, 0, 0]]

/-- The player distance `math.hypot(px - self.x, py - self.y)` computed by
`player_in_radiance` (proof device). -/
noncomputable def pirDistPlayer (s : DeadlightBoss) (px pyy : ℝ) : ℝ :=
  Real.sqrt ((px - s.x) ^ 2 + (pyy - s.y) ^ 2)

/-- The ray angle `degrees(atan2(dy, dx)) % 360` computed by
`player_in_radiance` (proof device). -/
noncomputable def pirAngle (s : DeadlightBoss) (px pyy : ℝ) : ℝ :=
  pyMod (degrees (pyAtan2 (pyy - s.y) (px - s.x))) 360

/-- The ray-hit distance `math.hypot(hit_x - self.x, hit_y - self.y)`
computed by `player_in_radiance` (proof device). -/
noncomputable def pirHitDist (s : DeadlightBoss) (px pyy : ℝ) (g : Grid) : ℝ :=
  Real.sqrt (((cast_ray g s.x s.y (pirAngle s px pyy) (some (max 0 s.health))).1 - s.x) ^ 2 +
    ((cast_ray g s.x s.y (pirAngle s px pyy) (some (max 0 s.health))).2 - s.y) ^ 2)

/-- A freshly spawned boss flipped into escape mode (proof device for the
speed-model analysis). -/
noncomputable def c4Boss : DeadlightBoss :=
  { mkDeadlightBoss 100 100 200 0 with escape_mode := true }

/-- A freshly spawned boss that has been killed (proof device for the
dead-boss frame condition). -/
noncomputable def c10Boss : DeadlightBoss :=
  { mkDeadlightBoss 100 100 200 0 with alive := false }

/-! ## Theorems -/

theorem lookupA_cons {β : Type} (k k2 : Tile) (v : β) (l : List (Tile × β)) :
    lookupA k ((k2, v) :: l) = if k = k2 then some v else lookupA k l := rfl

theorem minEntry_mem (x : HeapEntry) (xs : List HeapEntry) : minEntry x xs ∈ x :: xs := by
  induction xs generalizing x with
  | nil => simp [minEntry]
  | cons y ys ih =>
    have hstep : minEntry x (y :: ys) = minEntry (if entryLtB y x then y else x) ys := by
      simp [minEntry]
    rw [hstep]
    rcases List.mem_cons.mp (ih (if entryLtB y x then y else x)) with h | h
    · by_cases hc : entryLtB y x
      · simp only [if_pos hc] at h ⊢
        simp [h]
      · simp only [if_neg hc] at h ⊢
        simp [h]
    · simp [h]

theorem popMin_mem {l : List HeapEntry} {e : HeapEntry} {rest : List HeapEntry}
    (h : popMin l = some (e, rest)) : e ∈ l := by
  cases l with
  | nil => simp [popMin] at h
  | cons x xs =>
    simp only [popMin, Option.some_inj, Prod.mk.injEq] at h
    rw [← h.1]
    exact minEntry_mem x xs

theorem popMin_rest_subset {l : List HeapEntry} {e : HeapEntry} {rest : List HeapEntry}
    (h : popMin l = some (e, rest)) : ∀ x ∈ rest, x ∈ l := by
  cases l with
  | nil => simp [popMin] at h
  | cons x xs =>
    simp only [popMin, Option.some_inj, Prod.mk.injEq] at h
    intro a ha
    rw [← h.2] at ha
    exact List.erase_subset _ _ ha

theorem adjTile_symm {a b : Tile} (h : adjTile a b) : adjTile b a := by
  unfold adjTile at h ⊢
  rw [abs_sub_comm, abs_sub_comm b.2]
  exact h

theorem adjTile_ne {a b : Tile} (h : adjTile a b) : a ≠ b := by
  intro he
  subst he
  simp [adjTile] at h

theorem mem_neighborTiles {x y gw gh : ℤ} {n : Tile} (h : n ∈ neighborTiles x y gw gh) :
    adjTile n (x, y) ∧ inBoundsTile gw gh n := by
  simp only [neighborTiles, List.mem_filterMap] at h
  obtain ⟨d, hd, hn⟩ := h
  split at hn
  · rename_i hc
    cases hn
    simp only [List.mem_cons, List.not_mem_nil, or_false] at hd
    rcases hd with h1 | h1 | h1 | h1 <;> subst h1 <;>
      exact ⟨by simp [adjTile], hc⟩
  · cases hn

theorem lookupA_isSome_cons {β : Type} {k : Tile} {l : List (Tile × β)} (a : Tile) (b : β)
    (h : (lookupA k l).isSome) : (lookupA k ((a, b) :: l)).isSome := by
  rw [lookupA_cons]
  by_cases hk : k = a
  · simp [hk]
  · simpa [hk] using h

theorem AStarInv.insert {g : Grid} {gw gh : ℤ} {s : Tile} {st : AStar}
    (inv : AStarInv g gw gh s st)
    {cur n : Tile} {ccur newCost prio : ℤ}
    (hcur : (lookupA cur st.cameFrom).isSome)
    (hccur : lookupA cur st.costSoFar = some ccur)
    (hnew : newCost = ccur + 1)
    (hgate : lookupA n st.costSoFar = none ∨
      ∃ c, lookupA n st.costSoFar = some c ∧ newCost < c)
    (hadj : adjTile n cur) (hbnd : inBoundsTile gw gh n) (hwn : cellAt g n.2 n.1 = 0) :
    AStarInv g gw gh s
      { openHeap := st.openHeap ++ [(prio, newCost, n)]
        cameFrom := (n, some cur) :: st.cameFrom
        costSoFar := (n, newCost) :: st.costSoFar } := by
  have hccur0 : 0 ≤ ccur := inv.costNonneg _ _ hccur
  have hncur : n ≠ cur := adjTile_ne hadj
  have hns : n ≠ s := by
    intro hns
    subst hns
    rcases hgate with hnone | ⟨c, hc, hlt⟩
    · rw [inv.startCost] at hnone
      exact Option.noConfusion hnone
    · rw [inv.startCost] at hc
      cases hc
      omega
  constructor
  case startNone =>
    rw [lookupA_cons, if_neg (Ne.symm hns)]
    exact inv.startNone
  case startCost =>
    rw [lookupA_cons, if_neg (Ne.symm hns)]
    exact inv.startCost
  case onlyStartNone =>
    intro k hk
    rw [lookupA_cons] at hk
    by_cases hkn : k = n
    · rw [if_pos hkn] at hk
      exact Option.noConfusion hk (fun h => Option.noConfusion h)
    · rw [if_neg hkn] at hk
      exact inv.onlyStartNone k hk
  case costNonneg =>
    intro k c hk
    rw [lookupA_cons] at hk
    by_cases hkn : k = n
    · rw [if_pos hkn] at hk
      cases hk
      omega
    · rw [if_neg hkn] at hk
      exact inv.costNonneg k c hk
  case costBound =>
    intro k c hk
    have hlen : (((n, some cur) :: st.cameFrom).length : ℤ) = st.cameFrom.length + 1 := by
      simp
    rw [lookupA_cons] at hk
    by_cases hkn : k = n
    · rw [if_pos hkn] at hk
      cases hk
      have := inv.costBound cur ccur hccur
      simp only [List.length_cons]
      push_cast
      omega
    · rw [if_neg hkn] at hk
      have := inv.costBound k c hk
      simp only [List.length_cons]
      push_cast
      omega
  case domCf =>
    intro k hk
    rw [lookupA_cons] at hk ⊢
    by_cases hkn : k = n
    · simp [hkn]
    · rw [if_neg hkn] at hk ⊢
      exact inv.domCf k hk
  case parentOk =>
    intro k p hk
    rw [lookupA_cons] at hk
    by_cases hkn : k = n
    · rw [if_pos hkn] at hk
      cases hk
      subst hkn
      refine ⟨hadj, hbnd, hwn, ?_, newCost, ccur, ?_, ?_, by omega⟩
      · exact lookupA_isSome_cons _ _ hcur
      · rw [lookupA_cons, if_pos rfl]
      · rw [lookupA_cons, if_neg (Ne.symm hncur)]
        exact hccur
    · rw [if_neg hkn] at hk
      obtain ⟨hadj2, hbnd2, hw2, hpdom, ck, cp, hck, hcp, hlt⟩ := inv.parentOk k p hk
      refine ⟨hadj2, hbnd2, hw2, lookupA_isSome_cons _ _ hpdom, ?_⟩
      by_cases hpn : p = n
      · subst hpn
        rcases hgate with hnone | ⟨c, hc, hltc⟩
        · rw [hcp] at hnone
          exact Option.noConfusion hnone
        · rw [hcp] at hc
          cases hc
          refine ⟨ck, newCost, ?_, ?_, by omega⟩
          · rw [lookupA_cons, if_neg hkn]
            exact hck
          · rw [lookupA_cons, if_pos rfl]
      · refine ⟨ck, cp, ?_, ?_, hlt⟩
        · rw [lookupA_cons, if_neg hkn]
          exact hck
        · rw [lookupA_cons, if_neg hpn]
          exact hcp
  case heapDom =>
    intro e he
    rcases List.mem_append.mp he with he | he
    · exact lookupA_isSome_cons _ _ (inv.heapDom e he)
    · simp only [List.mem_singleton] at he
      subst he
      rw [lookupA_cons]
      simp

theorem expandNeighbor_pres {g : Grid} {gw gh : ℤ} {s goal cur : Tile} {st : AStar} {n : Tile}
    (inv : AStarInv g gw gh s st)
    (hcur : (lookupA cur st.cameFrom).isSome)
    (hn : n ∈ neighborTiles cur.1 cur.2 gw gh) :
    AStarInv g gw gh s (expandNeighbor g goal cur st n) ∧
    (lookupA cur (expandNeighbor g goal cur st n).cameFrom).isSome := by
  obtain ⟨hadj, hbnd⟩ := mem_neighborTiles hn
  unfold expandNeighbor
  by_cases hwn : cellAt g n.2 n.1 ≠ 0
  · rw [if_pos hwn]
    exact ⟨inv, hcur⟩
  · rw [if_neg hwn]
    push_neg at hwn
    obtain ⟨ccur, hccur⟩ := Option.isSome_iff_exists.mp (inv.domCf cur hcur)
    simp only [hccur, Option.getD_some]
    rcases hcn : lookupA n st.costSoFar with _ | c
    · simp only [hcn]
      refine ⟨inv.insert hcur hccur rfl (Or.inl hcn) hadj hbnd hwn, lookupA_isSome_cons _ _ hcur⟩
    · simp only [hcn]
      by_cases hup : ccur + 1 < c
      · rw [if_pos (decide_eq_true hup)]
        refine ⟨inv.insert hcur hccur rfl (Or.inr ⟨c, hcn, hup⟩) hadj hbnd hwn,
          lookupA_isSome_cons _ _ hcur⟩
      · rw [if_neg (by simp [hup])]
        exact ⟨inv, hcur⟩

theorem foldl_expand_pres {g : Grid} {gw gh : ℤ} {s goal cur : Tile}
    (l : List Tile) {st : AStar}
    (inv : AStarInv g gw gh s st) (hcur : (lookupA cur st.cameFrom).isSome)
    (hl : ∀ n ∈ l, n ∈ neighborTiles cur.1 cur.2 gw gh) :
    AStarInv g gw gh s (l.foldl (expandNeighbor g goal cur) st) := by
  induction l generalizing st with
  | nil => exact inv
  | cons a as ih =>
    have h := @expandNeighbor_pres g gw gh s goal cur st a inv hcur (hl a (by simp))
    exact ih h.1 h.2 (fun n hn => hl n (by simp [hn]))

theorem reconstruct_sound {g : Grid} {gw gh : ℤ} {s : Tile} {st : AStar}
    (inv : AStarInv g gw gh s st)
    (hsbnd : inBoundsTile gw gh s) (hsw : cellAt g s.2 s.1 = 0) :
    ∀ fuel : ℕ, ∀ k : Tile, ∀ ck : ℤ, ∀ acc : List (ℤ × ℤ),
      (lookupA k st.cameFrom).isSome → lookupA k st.costSoFar = some ck →
      ck.toNat < fuel →
      ∃ tiles : List Tile,
        reconstruct st.cameFrom fuel (some k) acc = tiles.map tileCenter ++ acc.reverse ∧
        tiles.head? = some s ∧ tiles.getLast? = some k ∧ List.Chain' adjTile tiles ∧
        ∀ t ∈ tiles, inBoundsTile gw gh t ∧ cellAt g t.2 t.1 = 0 := by
  intro fuel
  induction fuel with
  | zero => intro k ck acc _ _ hlt; omega
  | succ f ih =>
    intro k ck acc hk hck hlt
    obtain ⟨v, hv⟩ := Option.isSome_iff_exists.mp hk
    cases v with
    | none =>
      have hks : k = s := inv.onlyStartNone k hv
      subst hks
      refine ⟨[k], ?_, rfl, rfl, List.chain'_singleton _, ?_⟩
      · rw [reconstruct, hv]
        show reconstruct st.cameFrom f none (acc ++ [tileCenter k]) = _
        rw [reconstruct]
        simp
      · intro t ht
        simp only [List.mem_singleton] at ht
        subst ht
        exact ⟨hsbnd, hsw⟩
    | some p =>
      obtain ⟨hadjkp, hbndk, hwk, hpdom, ck2, cp, hck2, hcp, hlt2⟩ := inv.parentOk k p hv
      rw [hck] at hck2
      cases hck2
      have hcpnn : 0 ≤ cp := inv.costNonneg p cp hcp
      have hcpf : cp.toNat < f := by omega
      obtain ⟨tiles, heq, hhead, hlast, hchain, hgood⟩ :=
        ih p cp (acc ++ [tileCenter k]) hpdom hcp hcpf
      refine ⟨tiles ++ [k], ?_, ?_, List.getLast?_concat _, ?_, ?_⟩
      · rw [reconstruct, hv]
        show reconstruct st.cameFrom f (some p) (acc ++ [tileCenter k]) = _
        rw [heq]
        simp
      · cases tiles with
        | nil => exact Option.noConfusion hhead
        | cons a l =>
          simp only [List.head?_cons, Option.some_inj] at hhead
          simp [hhead]
      · rw [List.chain'_append]
        refine ⟨hchain, List.chain'_singleton _, ?_⟩
        intro x hx y hy
        rw [hlast] at hx
        simp only [Option.mem_def, Option.some_inj] at hx
        simp only [List.head?_cons, Option.mem_def, Option.some_inj] at hy
        subst hx
        subst hy
        exact adjTile_symm hadjkp
      · intro t ht
        rcases List.mem_append.mp ht with ht | ht
        · exact hgood t ht
        · simp only [List.mem_singleton] at ht
          subst ht
          exact ⟨hbndk, hwk⟩

theorem aStarLoop_sound {g : Grid} {gw gh : ℤ} {s goal : Tile}
    (hsbnd : inBoundsTile gw gh s) (hsw : cellAt g s.2 s.1 = 0) :
    ∀ fuel : ℕ, ∀ st : AStar, AStarInv g gw gh s st →
      aStarLoop g gw gh goal fuel st = [] ∨
      ∃ tiles : List Tile,
        aStarLoop g gw gh goal fuel st = tiles.map tileCenter ∧
        tiles.head? = some s ∧ tiles.getLast? = some goal ∧
        List.Chain' adjTile tiles ∧
        ∀ t ∈ tiles, inBoundsTile gw gh t ∧ cellAt g t.2 t.1 = 0 := by
  intro fuel
  induction fuel with
  | zero => intro st _; left; rfl
  | succ f ih =>
    intro st inv
    rw [aStarLoop]
    rcases hpop : popMin st.openHeap with _ | ep
    · left; rfl
    · obtain ⟨e, rest⟩ := ep
      dsimp only
      have hmem := popMin_mem hpop
      have hcurdom := inv.heapDom e hmem
      by_cases hgoal : e.2.2 = goal
      · rw [if_pos hgoal]
        obtain ⟨ck, hck⟩ := Option.isSome_iff_exists.mp (inv.domCf _ hcurdom)
        have hbound := inv.costBound _ _ hck
        have hnn := inv.costNonneg _ _ hck
        obtain ⟨tiles, heq, hh, hl, hc, hgood⟩ :=
          reconstruct_sound inv hsbnd hsw (st.cameFrom.length + 1) e.2.2 ck []
            hcurdom hck (by omega)
        right
        refine ⟨tiles, ?_, hh, ?_, hc, hgood⟩
        · rw [heq]
          simp
        · rw [hl, hgoal]
      · rw [if_neg hgoal]
        have inv1 : AStarInv g gw gh s { st with openHeap := rest } :=
          { inv with
            heapDom := fun e2 he2 => inv.heapDom e2 (popMin_rest_subset hpop e2 he2) }
        have inv2 := @foldl_expand_pres g gw gh s goal e.2.2
          (neighborTiles e.2.2.1 e.2.2.2 gw gh) _ inv1 hcurdom (fun n hn => hn)
        exact ih _ inv2

theorem pyTrunc_intCast (z : ℤ) : pyTrunc ((z : ℝ)) = z := by
  unfold pyTrunc
  by_cases h : (0 : ℝ) ≤ (z : ℝ)
  · rw [if_pos h, Int.floor_intCast]
  · rw [if_neg h, Int.ceil_intCast]

theorem initInv (g : Grid) (gw gh : ℤ) (s t : Tile) :
    AStarInv g gw gh s
      { openHeap := [(0 + heuristic s.1 s.2 t.1 t.2, 0, s)]
        cameFrom := [(s, none)]
        costSoFar := [(s, 0)] } := by
  constructor
  case startNone => rw [lookupA_cons, if_pos rfl]
  case startCost => rw [lookupA_cons, if_pos rfl]
  case onlyStartNone =>
    intro k hk
    rw [lookupA_cons] at hk
    by_cases hks : k = s
    · exact hks
    · rw [if_neg hks] at hk
      exact Option.noConfusion hk
  case costNonneg =>
    intro k c hk
    rw [lookupA_cons] at hk
    by_cases hks : k = s
    · rw [if_pos hks] at hk
      cases hk
      omega
    · rw [if_neg hks] at hk
      exact Option.noConfusion hk
  case costBound =>
    intro k c hk
    rw [lookupA_cons] at hk
    by_cases hks : k = s
    · rw [if_pos hks] at hk
      cases hk
      simp
    · rw [if_neg hks] at hk
      exact Option.noConfusion hk
  case domCf =>
    intro k hk
    rw [lookupA_cons] at hk ⊢
    by_cases hks : k = s
    · simp [hks]
    · rw [if_neg hks] at hk
      simp [lookupA] at hk
  case parentOk =>
    intro k p hk
    rw [lookupA_cons] at hk
    by_cases hks : k = s
    · rw [if_pos hks] at hk
      simp at hk
    · rw [if_neg hks] at hk
      exact Option.noConfusion hk
  case heapDom =>
    intro e he
    simp only [List.mem_singleton] at he
    subst he
    rw [lookupA_cons]
    simp

/-- C1.  For every rectangular grid and every pair of world positions whose
tiles are in bounds and walkable, `find_path` returns either a sequence of
tile-center waypoints on pairwise 4-adjacent walkable tiles from the start
tile's center to the goal tile's center, or the empty sequence — in
particular, when the node-expansion cap stops the search the result is empty,
never a partial path. -/
theorem C1_find_path_path_or_empty (g : Grid) (startW goalW : ℝ × ℝ) (maxNodes : ℕ)
    (hrect : Rectangular g)
    (hsb : inBoundsTile (gridW g) (gridH g) (tileOf startW))
    (hgb : inBoundsTile (gridW g) (gridH g) (tileOf goalW))
    (hsw : cellAt g (tileOf startW).2 (tileOf startW).1 = 0)
    (hgw2 : cellAt g (tileOf goalW).2 (tileOf goalW).1 = 0) :
    FindPathSound g startW goalW (find_path g startW goalW maxNodes) := by
  obtain ⟨ha1, ha2, ha3, ha4⟩ := hsb
  obtain ⟨hb1, hb2, hb3, hb4⟩ := hgb
  unfold find_path
  dsimp only
  rw [if_neg (by push_neg; omega)]
  rw [if_neg (not_not_intro ⟨ha1, ha2, ha3, ha4, hb1, hb2, hb3, hb4⟩)]
  rw [if_neg (by push_neg; exact ⟨hsw, hgw2⟩)]
  exact aStarLoop_sound ⟨ha1, ha2, ha3, ha4⟩ hsw maxNodes _
    (initInv g (gridW g) (gridH g) (tileOf startW) (tileOf goalW))

theorem C1_find_path_path_or_empty_witness :
    Rectangular [[0, 0]] ∧
    inBoundsTile (gridW [[0, 0]]) (gridH [[0, 0]]) (tileOf ((4 : ℝ), (4 : ℝ))) ∧
    inBoundsTile (gridW [[0, 0]]) (gridH [[0, 0]]) (tileOf ((12 : ℝ), (4 : ℝ))) ∧
    cellAt [[0, 0]] (tileOf ((4 : ℝ), (4 : ℝ))).2 (tileOf ((4 : ℝ), (4 : ℝ))).1 = 0 ∧
    cellAt [[0, 0]] (tileOf ((12 : ℝ), (4 : ℝ))).2 (tileOf ((12 : ℝ), (4 : ℝ))).1 = 0 ∧
    FindPathSound [[0, 0]] ((4 : ℝ), (4 : ℝ)) ((12 : ℝ), (4 : ℝ))
      (find_path [[0, 0]] ((4 : ℝ), (4 : ℝ)) ((12 : ℝ), (4 : ℝ)) 10) := by
  have h4 : pyTrunc (4 : ℝ) = 4 := by norm_num [pyTrunc]
  have h12 : pyTrunc (12 : ℝ) = 12 := by norm_num [pyTrunc]
  have hs : tileOf ((4 : ℝ), (4 : ℝ)) = (0, 0) := by
    unfold tileOf TILE_SIZE
    rw [h4]
    decide
  have hg : tileOf ((12 : ℝ), (4 : ℝ)) = (1, 0) := by
    unfold tileOf TILE_SIZE
    rw [h4, h12]
    decide
  have hrect : Rectangular [[0, 0]] := by
    intro r hr
    simp only [List.mem_singleton] at hr
    subst hr
    rfl
  have hsb : inBoundsTile (gridW [[0, 0]]) (gridH [[0, 0]]) (tileOf ((4 : ℝ), (4 : ℝ))) := by
    rw [hs]
    exact ⟨by decide, by decide, by decide, by decide⟩
  have hgb : inBoundsTile (gridW [[0, 0]]) (gridH [[0, 0]]) (tileOf ((12 : ℝ), (4 : ℝ))) := by
    rw [hg]
    exact ⟨by decide, by decide, by decide, by decide⟩
  have hsw : cellAt [[0, 0]] (tileOf ((4 : ℝ), (4 : ℝ))).2 (tileOf ((4 : ℝ), (4 : ℝ))).1 = 0 := by
    rw [hs]
    decide
  have hgw2 : cellAt [[0, 0]] (tileOf ((12 : ℝ), (4 : ℝ))).2 (tileOf ((12 : ℝ), (4 : ℝ))).1 = 0 := by
    rw [hg]
    decide
  exact ⟨hrect, hsb, hgb, hsw, hgw2,
    C1_find_path_path_or_empty [[0, 0]] _ _ 10 hrect hsb hgb hsw hgw2⟩

/-- C9.  `find_path` returns the empty sequence whenever the grid is empty,
either endpoint's tile is out of bounds, or either endpoint's tile holds a
non-zero (non-walkable) cell code. -/
theorem C9_find_path_invalid_empty (g : Grid) (startW goalW : ℝ × ℝ) (maxNodes : ℕ)
    (h : g = [] ∨
         ¬ inBoundsTile (gridW g) (gridH g) (tileOf startW) ∨
         ¬ inBoundsTile (gridW g) (gridH g) (tileOf goalW) ∨
         cellAt g (tileOf startW).2 (tileOf startW).1 ≠ 0 ∨
         cellAt g (tileOf goalW).2 (tileOf goalW).1 ≠ 0) :
    find_path g startW goalW maxNodes = [] := by
  unfold find_path
  dsimp only
  by_cases h1 : gridW g = 0 ∨ gridH g = 0
  · rw [if_pos h1]
  · rw [if_neg h1]
    by_cases h2 : ¬ (0 ≤ (tileOf startW).1 ∧ (tileOf startW).1 < gridW g ∧
        0 ≤ (tileOf startW).2 ∧ (tileOf startW).2 < gridH g ∧
        0 ≤ (tileOf goalW).1 ∧ (tileOf goalW).1 < gridW g ∧
        0 ≤ (tileOf goalW).2 ∧ (tileOf goalW).2 < gridH g)
    · rw [if_pos h2]
    · rw [if_neg h2]
      rw [not_not] at h2
      by_cases h3 : cellAt g (tileOf startW).2 (tileOf startW).1 ≠ 0 ∨
          cellAt g (tileOf goalW).2 (tileOf goalW).1 ≠ 0
      · rw [if_pos h3]
      · exfalso
        push_neg at h3
        rcases h with h | h | h | h | h
        · exact h1 (Or.inr (by simp [h, gridH]))
        · exact h ⟨h2.1, h2.2.1, h2.2.2.1, h2.2.2.2.1⟩
        · exact h ⟨h2.2.2.2.2.1, h2.2.2.2.2.2.1, h2.2.2.2.2.2.2.1, h2.2.2.2.2.2.2.2⟩
        · exact h h3.1
        · exact h h3.2

theorem C9_find_path_invalid_empty_witness :
    cellAt [[1]] (tileOf ((4 : ℝ), (4 : ℝ))).2 (tileOf ((4 : ℝ), (4 : ℝ))).1 ≠ 0 ∧
    find_path [[1]] ((4 : ℝ), (4 : ℝ)) ((4 : ℝ), (4 : ℝ)) 100 = [] := by
  have h4 : pyTrunc (4 : ℝ) = 4 := by norm_num [pyTrunc]
  have hs : tileOf ((4 : ℝ), (4 : ℝ)) = (0, 0) := by
    unfold tileOf TILE_SIZE
    rw [h4]
    decide
  have hcell : cellAt [[1]] (tileOf ((4 : ℝ), (4 : ℝ))).2 (tileOf ((4 : ℝ), (4 : ℝ))).1 ≠ 0 := by
    rw [hs]
    decide
  exact ⟨hcell, C9_find_path_invalid_empty [[1]] _ _ 100
    (Or.inr (Or.inr (Or.inr (Or.inl hcell))))⟩

theorem blastClear_idem (c : ℕ) : blastClear (blastClear c) = blastClear c := by
  unfold blastClear
  by_cases h : c = 1 ∨ c = 2
  · rw [if_pos h]
    norm_num
  · rw [if_neg h, if_neg h]

theorem getD_setCell (g : Grid) (ty tx : ℤ) (v : ℕ) (n : ℕ) :
    (setCell g ty tx v).getD n [] =
      if n = ty.toNat ∧ n < g.length then (g.getD ty.toNat []).set tx.toNat v
      else g.getD n [] := by
  unfold setCell
  by_cases h1 : n = ty.toNat
  · by_cases h2 : n < g.length
    · rw [if_pos ⟨h1, h2⟩, h1, List.getD_eq_getElem?_getD,
        List.getElem?_set_eq_of_lt _ (by omega), Option.getD_some]
    · rw [if_neg (fun hc => h2 hc.2), List.set_eq_of_length_le (by omega)]
  · rw [if_neg (fun hc => h1 hc.1), List.getD_eq_getElem?_getD,
      List.getElem?_set_ne (Ne.symm h1), ← List.getD_eq_getElem?_getD]

theorem cellAt_setCell {g : Grid} {ty tx : ℤ} (v : ℕ)
    (hty0 : 0 ≤ ty) (htx0 : 0 ≤ tx)
    (htyl : ty.toNat < g.length) (htxl : tx.toNat < (g.getD ty.toNat []).length)
    {i j : ℤ} (hi : 0 ≤ i) (hj : 0 ≤ j) :
    cellAt (setCell g ty tx v) i j = if i = ty ∧ j = tx then v else cellAt g i j := by
  unfold cellAt
  rw [getD_setCell]
  by_cases h1 : i = ty
  · have hii : i.toNat = ty.toNat := by omega
    rw [if_pos ⟨hii, by omega⟩]
    by_cases h2 : j = tx
    · have hjj : j.toNat = tx.toNat := by omega
      rw [if_pos ⟨h1, h2⟩, hjj, List.getD_eq_getElem?_getD,
        List.getElem?_set_eq_of_lt _ htxl, Option.getD_some]
    · rw [if_neg (fun hc => h2 hc.2), List.getD_eq_getElem?_getD,
        List.getElem?_set_ne (show tx.toNat ≠ j.toNat by omega),
        ← List.getD_eq_getElem?_getD, hii]
  · rw [if_neg (fun hc => h1 (by omega)), if_neg (fun hc => h1 hc.1)]

theorem dimsOk_setCell {w h : ℤ} {g : Grid} (hdim : DimsOk w h g) (ty tx : ℤ) (v : ℕ) :
    DimsOk w h (setCell g ty tx v) := by
  have hlen : (setCell g ty tx v).length = g.length := by
    unfold setCell
    rw [List.length_set]
  refine ⟨by rw [hlen]; exact hdim.1, ?_⟩
  intro n hn
  rw [hlen] at hn
  rw [getD_setCell]
  by_cases hc : n = ty.toNat ∧ n < g.length
  · rw [if_pos hc, List.length_set]
    exact hdim.2 ty.toNat (by omega)
  · rw [if_neg hc]
    exact hdim.2 n hn

theorem dimsOk_blastAt {w h : ℤ} {g : Grid} (hdim : DimsOk w h g) (ty tx : ℤ) :
    DimsOk w h (blastAt w h g ty tx) := by
  unfold blastAt
  by_cases h1 : 0 ≤ tx ∧ tx < w ∧ 0 ≤ ty ∧ ty < h
  · rw [if_pos h1]
    by_cases h2 : cellAt g ty tx = 1 ∨ cellAt g ty tx = 2
    · rw [if_pos h2]
      exact dimsOk_setCell hdim ty tx 0
    · rw [if_neg h2]
      exact hdim
  · rw [if_neg h1]
    exact hdim

theorem cellAt_blastAt {w h : ℤ} {g : Grid} (hdim : DimsOk w h g)
    (ty tx : ℤ) {i j : ℤ} (hi : 0 ≤ i) (hj : 0 ≤ j) :
    cellAt (blastAt w h g ty tx) i j =
      if BlastHit w h ty tx i j then blastClear (cellAt g i j) else cellAt g i j := by
  unfold blastAt
  by_cases hb : 0 ≤ tx ∧ tx < w ∧ 0 ≤ ty ∧ ty < h
  · rw [if_pos hb]
    obtain ⟨hb1, hb2, hb3, hb4⟩ := hb
    have htyl : ty.toNat < g.length := by
      have := hdim.1
      omega
    have htxl : tx.toNat < (g.getD ty.toNat []).length := by
      have := hdim.2 ty.toNat htyl
      omega
    by_cases hd : cellAt g ty tx = 1 ∨ cellAt g ty tx = 2
    · rw [if_pos hd, cellAt_setCell 0 hb3 hb1 htyl htxl hi hj]
      by_cases hh : i = ty ∧ j = tx
      · rw [if_pos hh, if_pos ⟨hh.1, hh.2, hb1, hb2, hb3, hb4⟩, hh.1, hh.2]
        unfold blastClear
        rw [if_pos hd]
      · rw [if_neg hh, if_neg (fun hc => hh ⟨hc.1, hc.2.1⟩)]
    · rw [if_neg hd]
      by_cases hh : BlastHit w h ty tx i j
      · rw [if_pos hh]
        obtain ⟨e1, e2, _⟩ := hh
        subst e1
        subst e2
        unfold blastClear
        rw [if_neg hd]
      · rw [if_neg hh]
  · rw [if_neg hb,
      if_neg (fun hc => hb ⟨hc.2.2.1, hc.2.2.2.1, hc.2.2.2.2.1, hc.2.2.2.2.2⟩)]

theorem cellAt_innerFold {w h ty tx : ℤ} (L : List ℤ) {g : Grid} (hdim : DimsOk w h g)
    {i j : ℤ} (hi : 0 ≤ i) (hj : 0 ≤ j) :
    DimsOk w h (L.foldl (fun g2 dx => blastAt w h g2 ty (tx + dx)) g) ∧
    cellAt (L.foldl (fun g2 dx => blastAt w h g2 ty (tx + dx)) g) i j =
      if ∃ d ∈ L, BlastHit w h ty (tx + d) i j then blastClear (cellAt g i j)
      else cellAt g i j := by
  induction L generalizing g with
  | nil => exact ⟨hdim, by simp⟩
  | cons d ds ih =>
    obtain ⟨hdim', hchar⟩ := ih (dimsOk_blastAt hdim ty (tx + d))
    refine ⟨hdim', ?_⟩
    rw [List.foldl_cons, hchar, cellAt_blastAt hdim ty (tx + d) hi hj]
    by_cases h1 : BlastHit w h ty (tx + d) i j
    · by_cases h2 : ∃ d2 ∈ ds, BlastHit w h ty (tx + d2) i j
      · rw [if_pos h2, if_pos h1, blastClear_idem,
          if_pos ⟨d, List.mem_cons_self d ds, h1⟩]
      · rw [if_neg h2, if_pos h1, if_pos ⟨d, List.mem_cons_self d ds, h1⟩]
    · by_cases h2 : ∃ d2 ∈ ds, BlastHit w h ty (tx + d2) i j
      · obtain ⟨d2, hd2, hb2⟩ := h2
        rw [if_pos ⟨d2, hd2, hb2⟩, if_neg h1,
          if_pos ⟨d2, List.mem_cons_of_mem d hd2, hb2⟩]
      · rw [if_neg h2, if_neg h1, if_neg ?hno]
        case hno =>
          rintro ⟨d2, hd2, hb2⟩
          rcases List.mem_cons.mp hd2 with rfl | hmem
          · exact h1 hb2
          · exact h2 ⟨d2, hmem, hb2⟩

theorem cellAt_outerFold {w h ty tx : ℤ} (Ly Lx : List ℤ) {g : Grid} (hdim : DimsOk w h g)
    {i j : ℤ} (hi : 0 ≤ i) (hj : 0 ≤ j) :
    cellAt (Ly.foldl (fun g1 dy =>
        Lx.foldl (fun g2 dx => blastAt w h g2 (ty + dy) (tx + dx)) g1) g) i j =
      if ∃ dy ∈ Ly, ∃ dx ∈ Lx, BlastHit w h (ty + dy) (tx + dx) i j
      then blastClear (cellAt g i j) else cellAt g i j := by
  induction Ly generalizing g with
  | nil => simp
  | cons d ds ih =>
    obtain ⟨hdim', hchar⟩ := cellAt_innerFold Lx hdim hi hj
    rw [List.foldl_cons, ih hdim', hchar]
    by_cases h1 : ∃ dx ∈ Lx, BlastHit w h (ty + d) (tx + dx) i j
    · by_cases h2 : ∃ dy ∈ ds, ∃ dx ∈ Lx, BlastHit w h (ty + dy) (tx + dx) i j
      · rw [if_pos h2, if_pos h1, blastClear_idem,
          if_pos ⟨d, List.mem_cons_self d ds, h1⟩]
      · rw [if_neg h2, if_pos h1, if_pos ⟨d, List.mem_cons_self d ds, h1⟩]
    · by_cases h2 : ∃ dy ∈ ds, ∃ dx ∈ Lx, BlastHit w h (ty + dy) (tx + dx) i j
      · obtain ⟨d2, hd2, hb2⟩ := h2
        rw [if_pos ⟨d2, hd2, hb2⟩, if_neg h1,
          if_pos ⟨d2, List.mem_cons_of_mem d hd2, hb2⟩]
      · rw [if_neg h2, if_neg h1, if_neg ?hno2]
        case hno2 =>
          rintro ⟨d2, hd2, hb2⟩
          rcases List.mem_cons.mp hd2 with rfl | hmem
          · exact h1 hb2
          · exact h2 ⟨d2, hmem, hb2⟩

theorem mem_offsetRange {r d : ℤ} (hr : 0 ≤ r) : d ∈ offsetRange r ↔ -r ≤ d ∧ d ≤ r := by
  unfold offsetRange
  rw [List.mem_map]
  constructor
  · rintro ⟨n, hn, rfl⟩
    rw [List.mem_range] at hn
    omega
  · rintro ⟨h1, h2⟩
    refine ⟨(d + r).toNat, ?_, by omega⟩
    rw [List.mem_range]
    omega

/-- C3.  The boss's wall-destruction blast never mutates a boundary cell
(code 3): after `_perform_power_blast`, every cell that held 3 still holds 3,
and the only changed cells are cells within the blast radius of the boss tile
that held code 1 or 2, which become 0. -/
theorem C3_power_blast_boundary_safe (x y : ℝ) (radiusTiles : ℤ) (g : Grid)
    (hrect : Rectangular g) (i j : ℤ) (hi : 0 ≤ i) (hj : 0 ≤ j) :
    (cellAt g i j = 3 → cellAt (performPowerBlastGrid x y radiusTiles g) i j = 3) ∧
    (cellAt (performPowerBlastGrid x y radiusTiles g) i j ≠ cellAt g i j →
      |i - (tileOf (x, y)).2| ≤ max 1 radiusTiles ∧
      |j - (tileOf (x, y)).1| ≤ max 1 radiusTiles ∧
      (cellAt g i j = 1 ∨ cellAt g i j = 2) ∧
      cellAt (performPowerBlastGrid x y radiusTiles g) i j = 0) := by
  unfold performPowerBlastGrid
  dsimp only
  by_cases hw0 : gridW g = 0
  · rw [if_pos hw0]
    exact ⟨fun h3 => h3, fun hne => absurd rfl hne⟩
  · rw [if_neg hw0]
    have hdim : DimsOk (gridW g) (gridH g) g := by
      refine ⟨rfl, ?_⟩
      intro n hn
      have hmem : g.getD n [] ∈ g := by
        rw [List.getD_eq_getElem g [] hn]
        exact List.getElem_mem hn
      exact hrect _ hmem
    rw [cellAt_outerFold (offsetRange (max 1 radiusTiles))
      (offsetRange (max 1 radiusTiles)) hdim hi hj]
    have h1r : (0 : ℤ) ≤ max 1 radiusTiles := le_trans zero_le_one (le_max_left _ _)
    constructor
    · intro h3
      by_cases hhit : ∃ dy ∈ offsetRange (max 1 radiusTiles),
          ∃ dx ∈ offsetRange (max 1 radiusTiles),
          BlastHit (gridW g) (gridH g) ((pyTrunc y).fdiv TILE_SIZE + dy)
            ((pyTrunc x).fdiv TILE_SIZE + dx) i j
      · rw [if_pos hhit, h3]
        decide
      · rw [if_neg hhit]
        exact h3
    · intro hne
      by_cases hhit : ∃ dy ∈ offsetRange (max 1 radiusTiles),
          ∃ dx ∈ offsetRange (max 1 radiusTiles),
          BlastHit (gridW g) (gridH g) ((pyTrunc y).fdiv TILE_SIZE + dy)
            ((pyTrunc x).fdiv TILE_SIZE + dx) i j
      · rw [if_pos hhit] at hne ⊢
        have hd : cellAt g i j = 1 ∨ cellAt g i j = 2 := by
          by_contra hc
          exact hne (by unfold blastClear; rw [if_neg hc])
        obtain ⟨dy, hdy, dx, hdx, hb⟩ := hhit
        rw [mem_offsetRange h1r] at hdy hdx
        obtain ⟨e1, e2, _⟩ := hb
        refine ⟨?_, ?_, hd, ?_⟩
        · have hty : (tileOf (x, y)).2 = (pyTrunc y).fdiv TILE_SIZE := rfl
          rw [hty, e1, abs_le]
          constructor <;> omega
        · have htx : (tileOf (x, y)).1 = (pyTrunc x).fdiv TILE_SIZE := rfl
          rw [htx, e2, abs_le]
          constructor <;> omega
        · unfold blastClear
          rw [if_pos hd]
      · rw [if_neg hhit] at hne
        exact absurd rfl hne

theorem C3_power_blast_boundary_safe_witness :
    Rectangular [[3, 3, 3], [3, 1, 3], [3, 3, 3]] ∧ (0 : ℤ) ≤ 0 ∧
    ((cellAt [[3, 3, 3], [3, 1, 3], [3, 3, 3]] 0 0 = 3 →
      cellAt (performPowerBlastGrid 12 12 8 [[3, 3, 3], [3, 1, 3], [3, 3, 3]]) 0 0 = 3) ∧
     (cellAt (performPowerBlastGrid 12 12 8 [[3, 3, 3], [3, 1, 3], [3, 3, 3]]) 0 0 ≠
        cellAt [[3, 3, 3], [3, 1, 3], [3, 3, 3]] 0 0 →
      |(0 : ℤ) - (tileOf ((12 : ℝ), (12 : ℝ))).2| ≤ max 1 8 ∧
      |(0 : ℤ) - (tileOf ((12 : ℝ), (12 : ℝ))).1| ≤ max 1 8 ∧
      (cellAt [[3, 3, 3], [3, 1, 3], [3, 3, 3]] 0 0 = 1 ∨
       cellAt [[3, 3, 3], [3, 1, 3], [3, 3, 3]] 0 0 = 2) ∧
      cellAt (performPowerBlastGrid 12 12 8 [[3, 3, 3], [3, 1, 3], [3, 3, 3]]) 0 0 = 0)) := by
  have hrect : Rectangular [[3, 3, 3], [3, 1, 3], [3, 3, 3]] := by
    intro r hr
    simp only [List.mem_cons, List.not_mem_nil, or_false] at hr
    rcases hr with rfl | rfl | rfl <;> decide
  exact ⟨hrect, le_refl 0,
    C3_power_blast_boundary_safe 12 12 8 [[3, 3, 3], [3, 1, 3], [3, 3, 3]] hrect 0 0
      (le_refl 0) (le_refl 0)⟩

/-- C7.  `start_chase(t)` with `t ≥ 0` adds `t` to the remaining chase timer
(cumulative, not overwritten), sets chase mode, clears the waypath and all
stuck/direction-smoothing state, and clears the last-known player position;
two successive calls with no elapsed time accumulate both amounts. -/
theorem C7_start_chase_accumulates (s : DeadlightBoss) (t1 t2 : ℝ)
    (h1 : 0 ≤ t1) (h2 : 0 ≤ t2) :
    (start_chase s (some t1)).chase_mode = true ∧
    get_chase_time_remaining (start_chase s (some t1)) = max 0 s.chase_timer + t1 ∧
    (start_chase s (some t1)).path = [] ∧
    (start_chase s (some t1)).path_index = 0 ∧
    (start_chase s (some t1)).simple_chase_stuck_timer = 0 ∧
    (start_chase s (some t1)).simple_chase_last_pos = (s.x, s.y) ∧
    (start_chase s (some t1)).astar_stuck_timer = 0 ∧
    (start_chase s (some t1)).astar_last_pos = (s.x, s.y) ∧
    (start_chase s (some t1)).preferred_direction = none ∧
    (start_chase s (some t1)).direction_persistence_timer = 0 ∧
    (start_chase s (some t1)).last_successful_direction = none ∧
    (start_chase s (some t1)).last_player_pos = none ∧
    get_chase_time_remaining (start_chase (start_chase s (some t1)) (some t2)) =
      max 0 s.chase_timer + t1 + t2 := by
  have ha : (0 : ℝ) ≤ max 0 s.chase_timer := le_max_left 0 _
  refine ⟨rfl, ?_, rfl, rfl, rfl, rfl, rfl, rfl, rfl, rfl, rfl, rfl, ?_⟩
  · unfold get_chase_time_remaining
    rw [if_pos (show (start_chase s (some t1)).chase_mode = true from rfl)]
    show max 0 (max 0 s.chase_timer + max 0 t1) = max 0 s.chase_timer + t1
    rw [max_eq_right h1, max_eq_right (by linarith : (0 : ℝ) ≤ max 0 s.chase_timer + t1)]
  · unfold get_chase_time_remaining
    rw [if_pos (show (start_chase (start_chase s (some t1)) (some t2)).chase_mode = true
      from rfl)]
    show max 0 (max 0 (max 0 s.chase_timer + max 0 t1) + max 0 t2) =
      max 0 s.chase_timer + t1 + t2
    rw [max_eq_right h1, max_eq_right h2,
      max_eq_right (by linarith : (0 : ℝ) ≤ max 0 s.chase_timer + t1),
      max_eq_right (by linarith : (0 : ℝ) ≤ max 0 s.chase_timer + t1 + t2)]

theorem C7_start_chase_accumulates_witness :
    (0 : ℝ) ≤ 60 ∧
    get_chase_time_remaining
      (start_chase (start_chase (mkDeadlightBoss 100 100 200 0) (some 60)) (some 60)) = 120 := by
  have h := C7_start_chase_accumulates (mkDeadlightBoss 100 100 200 0) 60 60
    (by norm_num) (by norm_num)
  refine ⟨by norm_num, ?_⟩
  rw [h.2.2.2.2.2.2.2.2.2.2.2.2]
  norm_num [mkDeadlightBoss]

/-- C8.  `drain_radiance(amount)` with `amount ≤ 0` is a no-op; with
`amount > 0` it floors health at 0, recomputes radiance as `max(0, health)`,
and (for a living boss) ends up dead exactly when the resulting health is 0;
in particular `drain_radiance(health + 100)` zeroes health and kills. -/
theorem C8_drain_radiance_contract (s : DeadlightBoss) (amount : ℝ)
    (halive : s.alive = true) (hh : 0 ≤ s.health) :
    (amount ≤ 0 → drain_radiance s amount = s) ∧
    (0 < amount →
      (drain_radiance s amount).health = max 0 (s.health - amount) ∧
      (drain_radiance s amount).radiance = max 0 ((drain_radiance s amount).health) ∧
      ((drain_radiance s amount).alive = false ↔ (drain_radiance s amount).health = 0)) ∧
    (drain_radiance s (s.health + 100)).health = 0 ∧
    (drain_radiance s (s.health + 100)).alive = false := by
  refine ⟨?_, ?_, ?_, ?_⟩
  · intro hle
    unfold drain_radiance
    rw [if_pos hle]
  · intro hpos
    unfold drain_radiance
    rw [if_neg (by linarith)]
    dsimp only
    refine ⟨rfl, rfl, ?_⟩
    · constructor
      · intro hf
        by_cases hz : max 0 (s.health - amount) ≤ 0
        · have : max 0 (s.health - amount) = 0 := le_antisymm hz (le_max_left 0 _)
          exact this
        · rw [if_neg hz] at hf
          rw [halive] at hf
          exact Bool.noConfusion hf
      · intro hz
        rw [if_pos (le_of_eq hz)]
  · unfold drain_radiance
    rw [if_neg (by linarith)]
    dsimp only
    rw [max_eq_left (by linarith)]
  · unfold drain_radiance
    rw [if_neg (by linarith)]
    dsimp only
    rw [if_pos (by rw [max_eq_left (by linarith : s.health - (s.health + 100) ≤ 0)])]

theorem C8_drain_radiance_contract_witness :
    (mkDeadlightBoss 0 0 200 0).alive = true ∧ (0 : ℝ) ≤ (mkDeadlightBoss 0 0 200 0).health ∧
    ((-5 : ℝ) ≤ 0 → drain_radiance (mkDeadlightBoss 0 0 200 0) (-5) = mkDeadlightBoss 0 0 200 0) ∧
    (drain_radiance (mkDeadlightBoss 0 0 200 0)
      ((mkDeadlightBoss 0 0 200 0).health + 100)).health = 0 ∧
    (drain_radiance (mkDeadlightBoss 0 0 200 0)
      ((mkDeadlightBoss 0 0 200 0).health + 100)).alive = false := by
  have h := C8_drain_radiance_contract (mkDeadlightBoss 0 0 200 0) (-5)
    rfl (by norm_num [mkDeadlightBoss])
  exact ⟨rfl, by norm_num [mkDeadlightBoss], h.1, h.2.2.1, h.2.2.2⟩

/-- C5 counterexample: `apply_multiplier(2.0)` on a boss with speed 100 and
chase path-recalculation interval 1.0 doubles the speed but leaves the chase
path-update interval (the one that throttles chase-mode A* recalcs) at 1.0,
not `max(0.35, 1.0/2.0) = 0.5`; the field it rescales is the legacy think
interval. -/
theorem C5_counterexample :
    (apply_multiplier
      { mkDeadlightBoss 0 0 200 0 with speed := 100, chase_path_update_interval := 1 }
      2).speed = 200 ∧
    (apply_multiplier
      { mkDeadlightBoss 0 0 200 0 with speed := 100, chase_path_update_interval := 1 }
      2).chase_path_update_interval = 1 ∧
    (1 : ℝ) ≠ max 0.35 (1 / 2) := by
  refine ⟨?_, ?_, ?_⟩
  · norm_num [apply_multiplier, mkDeadlightBoss]
  · norm_num [apply_multiplier, mkDeadlightBoss]
  · rw [max_eq_right (by norm_num : (0.35 : ℝ) ≤ 1 / 2)]
    norm_num

/-- C5 amended.  `apply_multiplier(mult)` (with `mult ≠ 0`) multiplies the
current speed and base speed by `mult` and replaces the legacy think interval
by `max(0.35, think_interval / mult)`; the chase path-recalculation interval
is unchanged.  In particular with `mult = 2`, speed 100 and think interval
1.0, the result is speed 200 and think interval 0.5. -/
theorem C5_apply_multiplier_amended (s : DeadlightBoss) (mult : ℝ) (hm : mult ≠ 0) :
    (apply_multiplier s mult).speed = s.speed * mult ∧
    (apply_multiplier s mult).base_speed = s.base_speed * mult ∧
    (apply_multiplier s mult).think_interval = max 0.35 (s.think_interval / mult) ∧
    (apply_multiplier s mult).chase_path_update_interval = s.chase_path_update_interval := by
  unfold apply_multiplier
  rw [if_neg hm]
  exact ⟨rfl, rfl, rfl, rfl⟩

theorem C5_apply_multiplier_amended_witness :
    (2 : ℝ) ≠ 0 ∧
    (apply_multiplier
      { mkDeadlightBoss 0 0 200 0 with speed := 100, think_interval := 1 } 2).speed = 200 ∧
    (apply_multiplier
      { mkDeadlightBoss 0 0 200 0 with speed := 100, think_interval := 1 }
      2).think_interval = 0.5 := by
  have h := C5_apply_multiplier_amended
    { mkDeadlightBoss 0 0 200 0 with speed := 100, think_interval := 1 } 2 (by norm_num)
  refine ⟨by norm_num, ?_, ?_⟩
  · rw [h.1]
    norm_num
  · rw [h.2.2.1]
    rw [max_eq_right (by norm_num : (0.35 : ℝ) ≤ 1 / 2)]
    norm_num

theorem castRayLoop_first_wall (g : Grid) (ox oy dx dy maxD : ℝ) :
    ∀ fuel j : ℕ, ∀ d0 : ℝ, 1 ≤ j → j ≤ fuel →
    (∀ m : ℕ, m < j → d0 + (m : ℝ) * RAY_STEP < maxD) →
    (∀ m : ℕ, 1 ≤ m → m < j →
      ¬ (ox + dx * (d0 + (m : ℝ) * RAY_STEP) < 0 ∨
         oy + dy * (d0 + (m : ℝ) * RAY_STEP) < 0 ∨
         MAP_SIZE ≤ ox + dx * (d0 + (m : ℝ) * RAY_STEP) ∨
         MAP_SIZE ≤ oy + dy * (d0 + (m : ℝ) * RAY_STEP)) ∧
      is_wall g (ox + dx * (d0 + (m : ℝ) * RAY_STEP))
        (oy + dy * (d0 + (m : ℝ) * RAY_STEP)) = false) →
    ¬ (ox + dx * (d0 + (j : ℝ) * RAY_STEP) < 0 ∨
       oy + dy * (d0 + (j : ℝ) * RAY_STEP) < 0 ∨
       MAP_SIZE ≤ ox + dx * (d0 + (j : ℝ) * RAY_STEP) ∨
       MAP_SIZE ≤ oy + dy * (d0 + (j : ℝ) * RAY_STEP)) →
    is_wall g (ox + dx * (d0 + (j : ℝ) * RAY_STEP))
      (oy + dy * (d0 + (j : ℝ) * RAY_STEP)) = true →
    castRayLoop g ox oy dx dy maxD fuel d0 =
      (ox + dx * (d0 + (j : ℝ) * RAY_STEP) - dx * 3,
       oy + dy * (d0 + (j : ℝ) * RAY_STEP) - dy * 3) := by
  intro fuel
  induction fuel with
  | zero =>
    intro j d0 hj hjf _ _ _ _
    omega
  | succ f ih =>
    intro j d0 hj hjf hlt hclean hbnd hwall
    rw [castRayLoop]
    have h0 : d0 < maxD := by
      have := hlt 0 (by omega)
      simpa using this
    rw [if_pos h0]
    dsimp only
    by_cases hj1 : j = 1
    · subst hj1
      have harg : d0 + ((1 : ℕ) : ℝ) * RAY_STEP = d0 + RAY_STEP := by push_cast; ring
      rw [harg] at hbnd hwall ⊢
      rw [if_neg hbnd, hwall, if_pos rfl]
    · have hcl1 := hclean 1 (le_refl 1) (by omega)
      have harg : d0 + ((1 : ℕ) : ℝ) * RAY_STEP = d0 + RAY_STEP := by push_cast; ring
      rw [harg] at hcl1
      rw [if_neg hcl1.1, hcl1.2, if_neg (by simp)]
      have e2 : d0 + RAY_STEP + ((j - 1 : ℕ) : ℝ) * RAY_STEP = d0 + (j : ℝ) * RAY_STEP := by
        rw [Nat.cast_sub hj]
        ring
      have hlt2 : ∀ m : ℕ, m < j - 1 → d0 + RAY_STEP + (m : ℝ) * RAY_STEP < maxD := by
        intro m hm
        have h1 := hlt (m + 1) (by omega)
        have e : d0 + ((m + 1 : ℕ) : ℝ) * RAY_STEP = d0 + RAY_STEP + (m : ℝ) * RAY_STEP := by
          push_cast
          ring
        rw [e] at h1
        exact h1
      have hclean2 : ∀ m : ℕ, 1 ≤ m → m < j - 1 →
          ¬ (ox + dx * (d0 + RAY_STEP + (m : ℝ) * RAY_STEP) < 0 ∨
             oy + dy * (d0 + RAY_STEP + (m : ℝ) * RAY_STEP) < 0 ∨
             MAP_SIZE ≤ ox + dx * (d0 + RAY_STEP + (m : ℝ) * RAY_STEP) ∨
             MAP_SIZE ≤ oy + dy * (d0 + RAY_STEP + (m : ℝ) * RAY_STEP)) ∧
          is_wall g (ox + dx * (d0 + RAY_STEP + (m : ℝ) * RAY_STEP))
            (oy + dy * (d0 + RAY_STEP + (m : ℝ) * RAY_STEP)) = false := by
        intro m h1 h2
        have h3 := hclean (m + 1) (by omega) (by omega)
        have e : d0 + ((m + 1 : ℕ) : ℝ) * RAY_STEP = d0 + RAY_STEP + (m : ℝ) * RAY_STEP := by
          push_cast
          ring
        rw [e] at h3
        exact h3
      have hbnd2 := hbnd
      have hwall2 := hwall
      rw [← e2] at hbnd2 hwall2
      rw [ih (j - 1) (d0 + RAY_STEP) (by omega) (by omega) hlt2 hclean2 hbnd2 hwall2, e2]

theorem rayDirX_zero : rayDirX 0 = 1 := by
  unfold rayDirX
  rw [show radians 0 = 0 by unfold radians; ring, Real.cos_zero]

theorem rayDirY_zero : rayDirY 0 = 0 := by
  unfold rayDirY
  rw [show radians 0 = 0 by unfold radians; ring, Real.sin_zero]

theorem is_wall_corridor_8 : is_wall corridorGrid 8 4 = false := by
  unfold is_wall
  dsimp only
  rw [show pyTrunc (8 : ℝ) = 8 by norm_num [pyTrunc],
    show pyTrunc (4 : ℝ) = 4 by norm_num [pyTrunc]]
  decide

theorem is_wall_corridor_13 : is_wall corridorGrid 13 4 = false := by
  unfold is_wall
  dsimp only
  rw [show pyTrunc (13 : ℝ) = 13 by norm_num [pyTrunc],
    show pyTrunc (4 : ℝ) = 4 by norm_num [pyTrunc]]
  decide

theorem is_wall_corridor_18 : is_wall corridorGrid 18 4 = false := by
  unfold is_wall
  dsimp only
  rw [show pyTrunc (18 : ℝ) = 18 by norm_num [pyTrunc],
    show pyTrunc (4 : ℝ) = 4 by norm_num [pyTrunc]]
  decide

theorem is_wall_corridor_23 : is_wall corridorGrid 23 4 = false := by
  unfold is_wall
  dsimp only
  rw [show pyTrunc (23 : ℝ) = 23 by norm_num [pyTrunc],
    show pyTrunc (4 : ℝ) = 4 by norm_num [pyTrunc]]
  decide

theorem is_wall_corridor_28 : is_wall corridorGrid 28 4 = true := by
  unfold is_wall
  dsimp only
  rw [show pyTrunc (28 : ℝ) = 28 by norm_num [pyTrunc],
    show pyTrunc (4 : ℝ) = 4 by norm_num [pyTrunc]]
  decide

/-- The corridor march: starting at (3, 4) heading along +x, samples at
x = 8, 13, 18, 23 are clear, the sample at x = 28 is the first blocked one,
and the loop returns it pulled back by 3. -/
theorem castRayLoop_corridor :
    castRayLoop corridorGrid 3 4 1 0 40 9 0 = (25, 4) := by
  have h := castRayLoop_first_wall corridorGrid 3 4 1 0 40 9 5 0 (by omega) (by omega)
    (by
      intro m hm
      interval_cases m <;> norm_num [RAY_STEP])
    (by
      intro m h1 h2
      interval_cases m
      · exact ⟨by norm_num [MAP_SIZE, RAY_STEP], by norm_num [RAY_STEP, is_wall_corridor_8]⟩
      · exact ⟨by norm_num [MAP_SIZE, RAY_STEP], by norm_num [RAY_STEP, is_wall_corridor_13]⟩
      · exact ⟨by norm_num [MAP_SIZE, RAY_STEP], by norm_num [RAY_STEP, is_wall_corridor_18]⟩
      · exact ⟨by norm_num [MAP_SIZE, RAY_STEP], by norm_num [RAY_STEP, is_wall_corridor_23]⟩)
    (by norm_num [MAP_SIZE, RAY_STEP])
    (by norm_num [RAY_STEP, is_wall_corridor_28])
  rw [h]
  norm_num [RAY_STEP]

/-- C6 counterexample: casting from (3, 4) at angle 0 toward the wall tile
whose near edge is at x = 24, the returned hit point is (25, 4): it lies
inside the blocking tile (its tile coordinates are exactly the blocking
tile's), not strictly before the tile's near edge. -/
theorem C6_counterexample :
    cast_ray corridorGrid 3 4 0 (some 40) = (25, 4) ∧
    cellAt corridorGrid 0 3 = 1 ∧
    (pyTrunc 25).fdiv TILE_SIZE = 3 ∧ (pyTrunc 4).fdiv TILE_SIZE = 0 := by
  refine ⟨?_, by decide, ?_, ?_⟩
  · unfold cast_ray
    dsimp only
    rw [Option.getD_some]
    rw [show radians 0 = 0 by unfold radians; ring, Real.cos_zero, Real.sin_zero,
      show (⌈(40 : ℝ) / RAY_STEP⌉₊ + 1 : ℕ) = 9 by norm_num [RAY_STEP]]
    exact castRayLoop_corridor
  · rw [show pyTrunc (25 : ℝ) = 25 by norm_num [pyTrunc]]
    decide
  · rw [show pyTrunc (4 : ℝ) = 4 by norm_num [pyTrunc]]
    decide

/-- C6 amended.  When the fixed-step ray march first samples a blocking
point at marched distance `j * RAY_STEP` within `max_distance` (all earlier
samples in map bounds and unblocked, the blocked sample in bounds),
`cast_ray` returns that sample pulled back by the fixed offset 3 along the
ray direction — a point that can still lie inside the blocking tile when the
sample lies more than 3 units past the tile's near edge. -/
theorem C6_cast_ray_first_hit_pullback (g : Grid) (ox oy angle maxD : ℝ) (j : ℕ)
    (hj : 1 ≤ j) (hstep : ((j : ℝ) - 1) * RAY_STEP < maxD)
    (hclean : ∀ m : ℕ, 1 ≤ m → m < j →
      inMapPt (raySample ox oy angle m) ∧
      is_wall g (raySample ox oy angle m).1 (raySample ox oy angle m).2 = false)
    (hbnd : inMapPt (raySample ox oy angle j))
    (hwall : is_wall g (raySample ox oy angle j).1 (raySample ox oy angle j).2 = true) :
    cast_ray g ox oy angle (some maxD) =
      ((raySample ox oy angle j).1 - rayDirX angle * 3,
       (raySample ox oy angle j).2 - rayDirY angle * 3) := by
  have hstep_pos : (0 : ℝ) < RAY_STEP := by norm_num [RAY_STEP]
  have hjle : j ≤ ⌈maxD / RAY_STEP⌉₊ + 1 := by
    have h1 : ((j : ℝ) - 1) < maxD / RAY_STEP := (lt_div_iff hstep_pos).mpr hstep
    have h2 : maxD / RAY_STEP ≤ (⌈maxD / RAY_STEP⌉₊ : ℝ) := Nat.le_ceil _
    have h3 : ((j : ℝ) - 1) < (⌈maxD / RAY_STEP⌉₊ : ℝ) := lt_of_lt_of_le h1 h2
    have h4 : (j : ℝ) < (⌈maxD / RAY_STEP⌉₊ : ℝ) + 1 := by linarith
    have h5 : (j : ℝ) < ((⌈maxD / RAY_STEP⌉₊ + 1 : ℕ) : ℝ) := by push_cast; linarith
    exact_mod_cast le_of_lt h5
  have hlt : ∀ m : ℕ, m < j → (0 : ℝ) + (m : ℝ) * RAY_STEP < maxD := by
    intro m hm
    have hm1 : (m : ℝ) ≤ (j : ℝ) - 1 := by
      have : (m : ℝ) + 1 ≤ (j : ℝ) := by exact_mod_cast hm
      linarith
    have : (m : ℝ) * RAY_STEP ≤ ((j : ℝ) - 1) * RAY_STEP :=
      mul_le_mul_of_nonneg_right hm1 (le_of_lt hstep_pos)
    linarith
  unfold cast_ray
  dsimp only
  rw [Option.getD_some]
  have := castRayLoop_first_wall g ox oy (rayDirX angle) (rayDirY angle) maxD
    (⌈maxD / RAY_STEP⌉₊ + 1) j 0 hj hjle hlt
    (by
      intro m h1 h2
      have h3 := hclean m h1 h2
      simpa [raySample, inMapPt, zero_add] using h3)
    (by simpa [raySample, inMapPt, zero_add] using hbnd)
    (by simpa [raySample, zero_add] using hwall)
  rw [show Real.cos (radians angle) = rayDirX angle from rfl,
    show Real.sin (radians angle) = rayDirY angle from rfl, this]
  simp [raySample, zero_add]

theorem C6_cast_ray_first_hit_pullback_witness :
    1 ≤ 5 ∧ ((5 : ℝ) - 1) * RAY_STEP < 40 ∧
    cast_ray corridorGrid 3 4 0 (some 40) =
      ((raySample 3 4 0 5).1 - rayDirX 0 * 3, (raySample 3 4 0 5).2 - rayDirY 0 * 3) := by
  refine ⟨by omega, by norm_num [RAY_STEP], ?_⟩
  exact C6_cast_ray_first_hit_pullback corridorGrid 3 4 0 40 5 (by omega)
    (by norm_num [RAY_STEP])
    (by
      intro m h1 h2
      interval_cases m
      · exact ⟨by norm_num [inMapPt, raySample, rayDirX_zero, rayDirY_zero, MAP_SIZE, RAY_STEP],
          by norm_num [raySample, rayDirX_zero, rayDirY_zero, RAY_STEP, is_wall_corridor_8]⟩
      · exact ⟨by norm_num [inMapPt, raySample, rayDirX_zero, rayDirY_zero, MAP_SIZE, RAY_STEP],
          by norm_num [raySample, rayDirX_zero, rayDirY_zero, RAY_STEP, is_wall_corridor_13]⟩
      · exact ⟨by norm_num [inMapPt, raySample, rayDirX_zero, rayDirY_zero, MAP_SIZE, RAY_STEP],
          by norm_num [raySample, rayDirX_zero, rayDirY_zero, RAY_STEP, is_wall_corridor_18]⟩
      · exact ⟨by norm_num [inMapPt, raySample, rayDirX_zero, rayDirY_zero, MAP_SIZE, RAY_STEP],
          by norm_num [raySample, rayDirX_zero, rayDirY_zero, RAY_STEP, is_wall_corridor_23]⟩)
    (by norm_num [inMapPt, raySample, rayDirX_zero, rayDirY_zero, MAP_SIZE, RAY_STEP])
    (by norm_num [raySample, rayDirX_zero, rayDirY_zero, RAY_STEP, is_wall_corridor_28])

theorem castRayLoop_no_wall (g : Grid) (ox oy dx dy maxD : ℝ) :
    ∀ fuel : ℕ, ∀ d0 : ℝ,
    (∀ m : ℕ, 1 ≤ m → d0 + ((m : ℝ) - 1) * RAY_STEP < maxD →
      ¬ (ox + dx * (d0 + (m : ℝ) * RAY_STEP) < 0 ∨
         oy + dy * (d0 + (m : ℝ) * RAY_STEP) < 0 ∨
         MAP_SIZE ≤ ox + dx * (d0 + (m : ℝ) * RAY_STEP) ∨
         MAP_SIZE ≤ oy + dy * (d0 + (m : ℝ) * RAY_STEP)) ∧
      is_wall g (ox + dx * (d0 + (m : ℝ) * RAY_STEP))
        (oy + dy * (d0 + (m : ℝ) * RAY_STEP)) = false) →
    castRayLoop g ox oy dx dy maxD fuel d0 = (ox + dx * maxD, oy + dy * maxD) := by
  intro fuel
  induction fuel with
  | zero =>
    intro d0 _
    rw [castRayLoop]
  | succ f ih =>
    intro d0 hclean
    rw [castRayLoop]
    by_cases h0 : d0 < maxD
    · rw [if_pos h0]
      dsimp only
      have hc1 := hclean 1 (le_refl 1) (by push_cast; simpa using h0)
      have harg : d0 + ((1 : ℕ) : ℝ) * RAY_STEP = d0 + RAY_STEP := by push_cast; ring
      rw [harg] at hc1
      rw [if_neg hc1.1, hc1.2, if_neg (by simp)]
      apply ih
      intro m h1 h2
      have h2b : d0 + (((m + 1 : ℕ) : ℝ) - 1) * RAY_STEP < maxD := by
        have e : d0 + (((m + 1 : ℕ) : ℝ) - 1) * RAY_STEP =
            d0 + RAY_STEP + ((m : ℝ) - 1) * RAY_STEP := by
          push_cast
          ring
        rw [e]
        exact h2
      have h3 := hclean (m + 1) (by omega) h2b
      have e : d0 + ((m + 1 : ℕ) : ℝ) * RAY_STEP = d0 + RAY_STEP + (m : ℝ) * RAY_STEP := by
        push_cast
        ring
      rw [e] at h3
      exact h3
    · rw [if_neg h0]

theorem is_wall_occ_1 : is_wall occlusionGrid 8 7 = false := by
  unfold is_wall
  dsimp only
  rw [show pyTrunc (8 : ℝ) = 8 by norm_num [pyTrunc],
    show pyTrunc (7 : ℝ) = 7 by norm_num [pyTrunc]]
  decide

theorem is_wall_occ_2 : is_wall occlusionGrid 12 10 = false := by
  unfold is_wall
  dsimp only
  rw [show pyTrunc (12 : ℝ) = 12 by norm_num [pyTrunc],
    show pyTrunc (10 : ℝ) = 10 by norm_num [pyTrunc]]
  decide

theorem is_wall_occ_3 : is_wall occlusionGrid 16 13 = false := by
  unfold is_wall
  dsimp only
  rw [show pyTrunc (16 : ℝ) = 16 by norm_num [pyTrunc],
    show pyTrunc (13 : ℝ) = 13 by norm_num [pyTrunc]]
  decide

theorem is_wall_occ_4 : is_wall occlusionGrid 20 16 = false := by
  unfold is_wall
  dsimp only
  rw [show pyTrunc (20 : ℝ) = 20 by norm_num [pyTrunc],
    show pyTrunc (16 : ℝ) = 16 by norm_num [pyTrunc]]
  decide

theorem is_wall_occ_5 : is_wall occlusionGrid 24 19 = false := by
  unfold is_wall
  dsimp only
  rw [show pyTrunc (24 : ℝ) = 24 by norm_num [pyTrunc],
    show pyTrunc (19 : ℝ) = 19 by norm_num [pyTrunc]]
  decide

theorem is_wall_occ_6 : is_wall occlusionGrid 28 22 = false := by
  unfold is_wall
  dsimp only
  rw [show pyTrunc (28 : ℝ) = 28 by norm_num [pyTrunc],
    show pyTrunc (22 : ℝ) = 22 by norm_num [pyTrunc]]
  decide

theorem is_wall_occ_7 : is_wall occlusionGrid 32 25 = false := by
  unfold is_wall
  dsimp only
  rw [show pyTrunc (32 : ℝ) = 32 by norm_num [pyTrunc],
    show pyTrunc (25 : ℝ) = 25 by norm_num [pyTrunc]]
  decide

theorem is_wall_occ_8 : is_wall occlusionGrid 36 28 = false := by
  unfold is_wall
  dsimp only
  rw [show pyTrunc (36 : ℝ) = 36 by norm_num [pyTrunc],
    show pyTrunc (28 : ℝ) = 28 by norm_num [pyTrunc]]
  decide

theorem is_wall_occ_9 : is_wall occlusionGrid 40 31 = false := by
  unfold is_wall
  dsimp only
  rw [show pyTrunc (40 : ℝ) = 40 by norm_num [pyTrunc],
    show pyTrunc (31 : ℝ) = 31 by norm_num [pyTrunc]]
  decide

theorem is_wall_occ_10 : is_wall occlusionGrid 44 34 = false := by
  unfold is_wall
  dsimp only
  rw [show pyTrunc (44 : ℝ) = 44 by norm_num [pyTrunc],
    show pyTrunc (34 : ℝ) = 34 by norm_num [pyTrunc]]
  decide

theorem is_wall_occ_11 : is_wall occlusionGrid 48 37 = false := by
  unfold is_wall
  dsimp only
  rw [show pyTrunc (48 : ℝ) = 48 by norm_num [pyTrunc],
    show pyTrunc (37 : ℝ) = 37 by norm_num [pyTrunc]]
  decide

theorem atan2_30_40 : pyAtan2 30 40 = Real.arctan (3 / 4) := by
  unfold pyAtan2
  rw [if_pos (by norm_num : (0 : ℝ) < 40)]
  norm_num

theorem deg_arctan34_lt : degrees (Real.arctan (3 / 4)) < 360 := by
  unfold degrees
  have hπ : 0 < Real.pi := Real.pi_pos
  have h2 : Real.arctan (3 / 4) < Real.pi / 2 := Real.arctan_lt_pi_div_two _
  rw [div_lt_iff hπ]
  nlinarith

theorem arctan34_pos : 0 < Real.arctan (3 / 4) := by
  have h := Real.arctan_strictMono (show (0 : ℝ) < 3 / 4 by norm_num)
  rwa [Real.arctan_zero] at h

theorem deg_arctan34_pos : 0 < degrees (Real.arctan (3 / 4)) := by
  unfold degrees
  have hπ : 0 < Real.pi := Real.pi_pos
  exact div_pos (mul_pos arctan34_pos (by norm_num)) hπ

theorem pyMod_deg_arctan34 :
    pyMod (degrees (Real.arctan (3 / 4))) 360 = degrees (Real.arctan (3 / 4)) := by
  unfold pyMod
  have h0 : ⌊degrees (Real.arctan (3 / 4)) / 360⌋ = 0 := by
    rw [Int.floor_eq_zero_iff]
    constructor
    · exact le_of_lt (div_pos deg_arctan34_pos (by norm_num))
    · rw [div_lt_one (by norm_num : (0 : ℝ) < 360)]
      exact deg_arctan34_lt
  rw [h0]
  norm_num

theorem radians_degrees_arctan34 :
    radians (degrees (Real.arctan (3 / 4))) = Real.arctan (3 / 4) := by
  unfold radians degrees
  have hπ : Real.pi ≠ 0 := ne_of_gt Real.pi_pos
  field_simp

theorem cos_arctan34 : Real.cos (Real.arctan (3 / 4)) = 4 / 5 := by
  rw [Real.cos_arctan,
    show (1 : ℝ) + (3 / 4) ^ 2 = (5 / 4) ^ 2 by norm_num,
    Real.sqrt_sq (by norm_num : (0 : ℝ) ≤ 5 / 4)]
  norm_num

theorem sin_arctan34 : Real.sin (Real.arctan (3 / 4)) = 3 / 5 := by
  rw [Real.sin_arctan,
    show (1 : ℝ) + (3 / 4) ^ 2 = (5 / 4) ^ 2 by norm_num,
    Real.sqrt_sq (by norm_num : (0 : ℝ) ≤ 5 / 4)]
  norm_num

theorem castRayLoop_occlusion :
    castRayLoop occlusionGrid 4 4 (4 / 5) (3 / 5) 55 12 0 = (48, 37) := by
  have h := castRayLoop_no_wall occlusionGrid 4 4 (4 / 5) (3 / 5) 55 12 0 ?clean
  case clean =>
    intro m h1 h2
    have hm11 : m ≤ 11 := by
      by_contra hm
      push_neg at hm
      have h12 : (12 : ℝ) ≤ (m : ℝ) := by exact_mod_cast hm
      have : (0 : ℝ) + ((m : ℝ) - 1) * RAY_STEP < 55 := h2
      rw [show RAY_STEP = (5 : ℝ) from rfl] at this
      linarith
    interval_cases m
    · exact ⟨by norm_num [MAP_SIZE, RAY_STEP],
        by convert is_wall_occ_1 using 2 <;> norm_num [RAY_STEP]⟩
    · exact ⟨by norm_num [MAP_SIZE, RAY_STEP],
        by convert is_wall_occ_2 using 2 <;> norm_num [RAY_STEP]⟩
    · exact ⟨by norm_num [MAP_SIZE, RAY_STEP],
        by convert is_wall_occ_3 using 2 <;> norm_num [RAY_STEP]⟩
    · exact ⟨by norm_num [MAP_SIZE, RAY_STEP],
        by convert is_wall_occ_4 using 2 <;> norm_num [RAY_STEP]⟩
    · exact ⟨by norm_num [MAP_SIZE, RAY_STEP],
        by convert is_wall_occ_5 using 2 <;> norm_num [RAY_STEP]⟩
    · exact ⟨by norm_num [MAP_SIZE, RAY_STEP],
        by convert is_wall_occ_6 using 2 <;> norm_num [RAY_STEP]⟩
    · exact ⟨by norm_num [MAP_SIZE, RAY_STEP],
        by convert is_wall_occ_7 using 2 <;> norm_num [RAY_STEP]⟩
    · exact ⟨by norm_num [MAP_SIZE, RAY_STEP],
        by convert is_wall_occ_8 using 2 <;> norm_num [RAY_STEP]⟩
    · exact ⟨by norm_num [MAP_SIZE, RAY_STEP],
        by convert is_wall_occ_9 using 2 <;> norm_num [RAY_STEP]⟩
    · exact ⟨by norm_num [MAP_SIZE, RAY_STEP],
        by convert is_wall_occ_10 using 2 <;> norm_num [RAY_STEP]⟩
    · exact ⟨by norm_num [MAP_SIZE, RAY_STEP],
        by convert is_wall_occ_11 using 2 <;> norm_num [RAY_STEP]⟩
  · rw [h]
    norm_num

theorem sqrt_occ_player :
    Real.sqrt ((44 - (4 : ℝ)) ^ 2 + (34 - (4 : ℝ)) ^ 2) = 50 := by
  rw [show (44 - (4 : ℝ)) ^ 2 + (34 - (4 : ℝ)) ^ 2 = 50 ^ 2 by norm_num,
    Real.sqrt_sq (by norm_num : (0 : ℝ) ≤ 50)]

theorem cast_ray_occlusion :
    cast_ray occlusionGrid 4 4 (degrees (Real.arctan (3 / 4))) (some (max 0 55)) = (48, 37) := by
  unfold cast_ray
  dsimp only
  rw [Option.getD_some,
    show max (0 : ℝ) 55 = 55 from max_eq_right (by norm_num),
    radians_degrees_arctan34, cos_arctan34, sin_arctan34,
    show (⌈(55 : ℝ) / RAY_STEP⌉₊ + 1 : ℕ) = 12 by norm_num [RAY_STEP]]
  exact castRayLoop_occlusion

/-- C2 counterexample: the boss sits at (4, 4) with health (= radiance) 55
and the player at (44, 34), distance 50 ≤ 55; the blocking wall tile (3, 3)
lies on the straight segment from boss to player (the segment point at
distance 34 < 50 truncates into that tile), yet `player_in_radiance`
returns `true`: the 5-unit discretized ray march steps over the
corner-clipped wall tile without ever sampling it. -/
theorem C2_counterexample :
    (player_in_radiance (mkDeadlightBoss 4 4 55 0) 44 34 occlusionGrid).2 = true ∧
    pirDistPlayer (mkDeadlightBoss 4 4 55 0) 44 34 ≤
      max 0 (mkDeadlightBoss 4 4 55 0).health ∧
    cellAt occlusionGrid 3 3 = 1 ∧
    (pyTrunc ((4 : ℝ) + (44 - 4) / 50 * 34)).fdiv TILE_SIZE = 3 ∧
    (pyTrunc ((4 : ℝ) + (34 - 4) / 50 * 34)).fdiv TILE_SIZE = 3 ∧
    (34 : ℝ) < 50 := by
  refine ⟨?_, ?_, by decide, ?_, ?_, by norm_num⟩
  · unfold player_in_radiance
    dsimp only [mkDeadlightBoss]
    rw [if_neg (by simp : ¬(true = false))]
    rw [sqrt_occ_player]
    rw [if_neg (by rw [max_eq_right (by norm_num : (0 : ℝ) ≤ 55)]; norm_num)]
    dsimp only
    rw [show pyMod (degrees (pyAtan2 ((34 : ℝ) - 4) ((44 : ℝ) - 4))) 360 =
        degrees (Real.arctan (3 / 4)) by
      rw [show (34 : ℝ) - 4 = 30 by norm_num, show (44 : ℝ) - 4 = 40 by norm_num,
        atan2_30_40, pyMod_deg_arctan34]]
    rw [cast_ray_occlusion]
    dsimp only
    rw [show Real.sqrt ((48 - (4 : ℝ)) ^ 2 + (37 - (4 : ℝ)) ^ 2) = 55 by
      rw [show (48 - (4 : ℝ)) ^ 2 + (37 - (4 : ℝ)) ^ 2 = 55 ^ 2 by norm_num,
        Real.sqrt_sq (by norm_num : (0 : ℝ) ≤ 55)]]
    exact decide_eq_true (by norm_num)
  · unfold pirDistPlayer
    dsimp only [mkDeadlightBoss]
    rw [sqrt_occ_player, max_eq_right (by norm_num : (0 : ℝ) ≤ 55)]
    norm_num
  · rw [show (4 : ℝ) + (44 - 4) / 50 * 34 = 31.2 by norm_num]
    rw [show pyTrunc (31.2 : ℝ) = 31 by
      unfold pyTrunc
      rw [if_pos (by norm_num : (0 : ℝ) ≤ 31.2), Int.floor_eq_iff]
      constructor <;> norm_num]
    decide
  · rw [show (4 : ℝ) + (34 - 4) / 50 * 34 = 24.4 by norm_num]
    rw [show pyTrunc (24.4 : ℝ) = 24 by
      unfold pyTrunc
      rw [if_pos (by norm_num : (0 : ℝ) ≤ 24.4), Int.floor_eq_iff]
      constructor <;> norm_num]
    decide

/-- C2 amended.  `player_in_radiance` returns `true` only if the player's
distance is at most the (health-refreshed) radiance AND the discretized
ray-march hit distance reaches the player's distance within epsilon;
conversely it returns `false` whenever the player is beyond the radiance or
the march's hit point falls more than epsilon short of the player's
distance.  (Occlusion blocks detection only when the fixed-step march
actually samples a blocking tile: a wall tile merely intersecting the
segment can be stepped over.) -/
theorem C2_player_in_radiance_amended (s : DeadlightBoss) (px pyy : ℝ) (g : Grid) :
    ((player_in_radiance s px pyy g).2 = true →
      s.alive = true ∧ pirDistPlayer s px pyy ≤ max 0 s.health ∧
      pirDistPlayer s px pyy ≤ pirHitDist s px pyy g + 1e-6) ∧
    (pirHitDist s px pyy g + 1e-6 < pirDistPlayer s px pyy →
      (player_in_radiance s px pyy g).2 = false) ∧
    (max 0 s.health < pirDistPlayer s px pyy →
      (player_in_radiance s px pyy g).2 = false) := by
  unfold player_in_radiance pirDistPlayer pirHitDist pirAngle
  by_cases halive : s.alive = false
  · rw [if_pos halive]
    refine ⟨?_, fun _ => rfl, fun _ => rfl⟩
    intro h
    exact absurd h (by simp)
  · rw [if_neg halive]
    dsimp only
    by_cases hrad : max 0 s.health < Real.sqrt ((px - s.x) ^ 2 + (pyy - s.y) ^ 2)
    · rw [if_pos hrad]
      refine ⟨?_, fun _ => rfl, fun _ => rfl⟩
      intro h
      exact absurd h (by simp)
    · rw [if_neg hrad]
      dsimp only
      refine ⟨?_, ?_, ?_⟩
      · intro h
        rw [decide_eq_true_eq] at h
        exact ⟨by simpa using halive, le_of_not_lt hrad, h⟩
      · intro hlt
        rw [decide_eq_false_iff_not]
        exact not_le.mpr hlt
      · intro hlt
        exact absurd hlt hrad

theorem C2_player_in_radiance_amended_witness :
    max 0 (mkDeadlightBoss 0 0 200 0).health <
      pirDistPlayer (mkDeadlightBoss 0 0 200 0) 300 0 ∧
    (player_in_radiance (mkDeadlightBoss 0 0 200 0) 300 0 [[0]]).2 = false := by
  have hd : pirDistPlayer (mkDeadlightBoss 0 0 200 0) 300 0 = 300 := by
    unfold pirDistPlayer
    dsimp only [mkDeadlightBoss]
    rw [show (300 - (0 : ℝ)) ^ 2 + (0 - (0 : ℝ)) ^ 2 = 300 ^ 2 by norm_num,
      Real.sqrt_sq (by norm_num : (0 : ℝ) ≤ 300)]
  have hlt : max 0 (mkDeadlightBoss 0 0 200 0).health <
      pirDistPlayer (mkDeadlightBoss 0 0 200 0) 300 0 := by
    rw [hd]
    dsimp only [mkDeadlightBoss]
    rw [max_eq_right (by norm_num : (0 : ℝ) ≤ 200)]
    norm_num
  exact ⟨hlt, (C2_player_in_radiance_amended (mkDeadlightBoss 0 0 200 0) 300 0 [[0]]).2.2 hlt⟩

/-! ### Speed preservation through the non-chase tick machinery -/

theorem move_if_free_speed (s : DeadlightBoss) (nx ny : ℝ) (g : Grid) :
    ((move_if_free s nx ny g).1).speed = s.speed := by
  unfold move_if_free
  dsimp only
  split <;> rfl

theorem attempt_jitter_move_speed (s : DeadlightBoss) (m : ℝ) (g : Grid) (rng : List ℝ) :
    ((attempt_jitter_move s m g rng).1).speed = s.speed := by
  unfold attempt_jitter_move
  dsimp only
  split
  · exact move_if_free_speed s _ _ g
  · exact move_if_free_speed s _ _ g

theorem ensure_on_floor_speed (s : DeadlightBoss) (g : Grid) :
    (ensure_on_floor s g).speed = s.speed := by
  unfold ensure_on_floor
  dsimp only
  split
  · rfl
  · split
    · rfl
    · split <;> rfl

theorem perform_power_blast_speed (s : DeadlightBoss) (g : Grid) (r : ℤ) :
    ((perform_power_blast s g r).1).speed = s.speed := by
  unfold perform_power_blast
  dsimp only
  split
  · rfl
  · exact ensure_on_floor_speed s _

theorem update_stuck_state_speed (s : DeadlightBoss) (dt : ℝ) (g : Grid) :
    ((update_stuck_state s dt g).1).speed = s.speed := by
  unfold update_stuck_state
  dsimp only
  split
  · rfl
  · split
    · exact perform_power_blast_speed _ _ _
    · rfl

theorem update_space_state_speed (s : DeadlightBoss) (dt : ℝ) (g : Grid) :
    ((update_space_state s dt g).1).speed = s.speed := by
  unfold update_space_state
  dsimp only
  split
  · rfl
  · split
    · exact perform_power_blast_speed _ _ _
    · rfl

theorem compute_path_speed (s : DeadlightBoss) (g : Grid) (goal : ℝ × ℝ) (tOr : List ℝ) :
    ((compute_path s g goal tOr).2.1).speed = s.speed := by
  unfold compute_path
  dsimp only
  split
  · exact perform_power_blast_speed _ _ _
  · rfl

theorem escapePathFollow_speed (s : DeadlightBoss) (dt : ℝ) (g : Grid) :
    ((escapePathFollow s dt g).1).speed = s.speed := by
  unfold escapePathFollow
  dsimp only
  split
  · split
    · rfl
    · split
      · split
        · exact move_if_free_speed s _ _ g
        · exact move_if_free_speed s _ _ g
      · rfl
  · rfl

theorem escapeStuckCheck_speed (s : DeadlightBoss) (dt : ℝ) (moved : Bool) :
    (escapeStuckCheck s dt moved).speed = s.speed := by
  unfold escapeStuckCheck
  dsimp only
  split
  · rfl
  · split
    · rfl
    · split <;> rfl

theorem escape_tick_speed (s : DeadlightBoss) (dt px pyy : ℝ) (g : Grid)
    (pr : Option ℝ) (rng tOr : List ℝ) :
    ((escape_tick s dt px pyy g pr rng tOr).1).speed = s.speed := by
  unfold escape_tick
  dsimp only
  split
  · repeat' split
    all_goals simp [escapeStuckCheck_speed, attempt_jitter_move_speed,
      escapePathFollow_speed, compute_path_speed]
  · rfl

/-- C10.  A dead boss's `update` is a complete no-op: the guard at the top
of `update` (deadlight.py lines 125-126) returns before any field of the
boss, any cell of the grid, or any random/timing draw is touched. -/
theorem C10_dead_update_noop (s : DeadlightBoss) (dt px pyy : ℝ) (g : Grid)
    (pr : Option ℝ) (rng tOr : List ℝ) (h : s.alive = false) :
    update s dt px pyy g pr rng tOr = (s, g, rng, tOr) := by
  unfold update
  rw [if_pos h]

theorem C10_dead_update_noop_witness :
    c10Boss.alive = false ∧
      update c10Boss 1 2 3 [[0]] none [] [] = (c10Boss, [[0]], [], []) :=
  ⟨rfl, C10_dead_update_noop c10Boss 1 2 3 [[0]] none [] [] rfl⟩

/-- C4.  The speed actually used for a living, non-chasing boss's
escape-mode movement tick is the UNMULTIPLIED health-based base speed: the
prologue (lines 144-150) does set `speed = base_speed * 1.5 * (5.0 when
under the player's light)`, but the non-chase baseline restore (line 284)
overwrites `speed` with `base_speed` before the escape movement runs, and
nothing in the escape branch writes `speed` again — contradicting the
spec's claim that the escape tick moves at the multiplied speed. -/
theorem C4_escape_speed_unmultiplied (s : DeadlightBoss) (dt px pyy : ℝ) (g : Grid)
    (pr : Option ℝ) (rng tOr : List ℝ) (halive : s.alive = true)
    (hchase : s.chase_mode = false) (hesc : s.escape_mode = true) :
    ((update s dt px pyy g pr rng tOr).1).speed = updateBaseSpeed s := by
  unfold update
  rw [if_neg (show ¬(s.alive = false) from by simp [halive])]
  dsimp only
  rw [if_neg (show ¬(s.chase_mode = true) from by simp [hchase])]
  dsimp only
  rw [if_neg (show ¬(s.chase_mode = true) from by simp [hchase])]
  dsimp only
  rw [if_pos (show s.escape_mode = true from hesc)]
  rw [update_space_state_speed, update_stuck_state_speed, escape_tick_speed]

theorem C4_escape_speed_unmultiplied_witness :
    (c4Boss.alive = true ∧ c4Boss.chase_mode = false ∧ c4Boss.escape_mode = true) ∧
    ((update c4Boss 0.5 500 500 [[0]] none [] []).1).speed = updateBaseSpeed c4Boss ∧
    updateBaseSpeed c4Boss = 300 ∧
    updateBaseSpeed c4Boss * c4Boss.escape_speed_multiplier = 450 ∧
    updateBaseSpeed c4Boss ≠ updateBaseSpeed c4Boss * c4Boss.escape_speed_multiplier := by
  have hbase : updateBaseSpeed c4Boss = 300 := by
    unfold updateBaseSpeed c4Boss mkDeadlightBoss
    dsimp only
    rw [max_eq_right (by norm_num : (1 : ℝ) ≤ 200)]
    norm_num
  have hmul : c4Boss.escape_speed_multiplier = 1.5 := rfl
  refine ⟨⟨rfl, rfl, rfl⟩,
    C4_escape_speed_unmultiplied c4Boss 0.5 500 500 [[0]] none [] [] rfl rfl rfl,
    hbase, ?_, ?_⟩
  · rw [hbase, hmul]; norm_num
  · rw [hbase, hmul]; norm_num

end DLC
